import Mathlib

/-!
Verification of the natural-language chart-configuration resolver of the
data-visualizer repository (src/utils/nlp_processor.py) and of the column
classifier (src/utils/data_processor.py), as a shallow embedding in Lean 4.

Python strings are modelled by Lean `String`; Python `needle in haystack`
substring tests by `strContains`; Python dicts (which preserve insertion
order and update values in place) by association lists with an `upsert`
operation that keeps the position of an existing key.
-/

namespace DataVisualizer

/-- Does the haystack character list start with the needle character list? -/
def charsStartWith : List Char → List Char → Bool
  | [], _ => true
  | _ :: _, [] => false
  | a :: as, b :: bs => a == b && charsStartWith as bs

/-- Is the needle a contiguous sublist of the haystack? -/
def charsInfix (needle : List Char) : List Char → Bool
  | [] => needle.isEmpty
  | h :: t => charsStartWith needle (h :: t) || charsInfix needle t

/-- Python `needle in haystack` substring containment. -/
def strContains (hay needle : String) : Bool :=
  charsInfix needle.toList hay.toList

/-- Python dict assignment `d[k] = v`: update the value in place if the key
exists (keeping its position), otherwise append the pair at the end. -/
def upsert {β : Type} (l : List (String × β)) (k : String) (v : β) : List (String × β) :=
  match l with
  | [] => [(k, v)]
  | (k1, v1) :: t => if k1 = k then (k, v) :: t else (k1, v1) :: upsert t k v

/-- Python dict lookup `d[k]` as an option, scanning in insertion order. -/
def lookupKey {β : Type} : List (String × β) → String → Option β
  | [], _ => none
  | (k1, v1) :: t, k => if k1 = k then some v1 else lookupKey t k

instance {ε α : Type} [DecidableEq ε] [DecidableEq α] : DecidableEq (Except ε α) := fun a b =>
  match a, b with
  | Except.error e1, Except.error e2 =>
    match decEq e1 e2 with
    | isTrue h => isTrue (congrArg Except.error h)
    | isFalse h => isFalse (fun hh => h (Except.error.inj hh))
  | Except.error _, Except.ok _ => isFalse (fun hh => Except.noConfusion hh)
  | Except.ok _, Except.error _ => isFalse (fun hh => Except.noConfusion hh)
  | Except.ok a1, Except.ok a2 =>
    match decEq a1 a2 with
    | isTrue h => isTrue (congrArg Except.ok h)
    | isFalse h => isFalse (fun hh => h (Except.ok.inj hh))

/-- CHART_TYPE_KEYWORDS table of src/utils/nlp_processor.py, in source order. -/
def CHART_TYPE_KEYWORDS : List (String × List String) :=
  [ ("bar_chart", ["bar", "bars", "bar chart", "bar graph", "column", "columns"]),
    ("line_chart", ["line", "lines", "line chart", "line graph", "trend", "trends", "time series"]),
    ("scatter_plot", ["scatter", "scatterplot", "scatter plot", "points", "correlation"]),
    ("pie_chart", ["pie", "pie chart", "proportion", "percentage", "distribution"]),
    ("histogram", ["histogram", "distribution", "frequency"]),
    ("box_plot", ["box", "box plot", "boxplot", "whisker", "quartile", "median", "box and whisker"]),
    ("heatmap", ["heatmap", "heat map", "correlation", "matrix"]) ]

/-- AGGREGATION_KEYWORDS table of src/utils/nlp_processor.py, in source order. -/
def AGGREGATION_KEYWORDS : List (String × List String) :=
  [ ("sum", ["sum", "total", "add"]),
    ("average", ["average", "avg", "mean"]),
    ("count", ["count", "frequency", "occurrences", "number of"]),
    ("min", ["minimum", "min", "lowest", "smallest"]),
    ("max", ["maximum", "max", "highest", "largest"]),
    ("median", ["median", "middle"]) ]

/-- Per-tag score: number of trigger phrases occurring as substrings of the query. -/
def scoreOf (query : String) (kws : List String) : Nat :=
  (kws.filter (fun k => strContains query k)).length

/-- The scores dict of identify_visualization_type, in table order. -/
def chartScores (query : String) : List (String × Nat) :=
  CHART_TYPE_KEYWORDS.map (fun p => (p.1, scoreOf query p.2))

/-- Python `max(scores.values())`. -/
def maxScore (query : String) : Nat :=
  ((chartScores query).map Prod.snd).foldl Nat.max 0

/-- Python `max(iterable, key=...)` keeps the first maximal element:
a later element replaces the current best only when strictly greater. -/
def argmaxGo (best : String × Nat) : List (String × Nat) → String
  | [] => best.1
  | q :: t => if q.2 > best.2 then argmaxGo q t else argmaxGo best t

/-- Python `max(scores, key=scores.get)` over a nonempty association list. -/
def argmaxFirst (d : String) : List (String × Nat) → String
  | [] => d
  | p :: t => argmaxGo p t

/-- identify_visualization_type of src/utils/nlp_processor.py (query already
lowercased by the caller). -/
def identify_visualization_type (query : String) : String :=
  if maxScore query = 0 then
    if strContains query "over time" || strContains query "trend" ||
        strContains query "time series" then
      "line_chart"
    else
      "bar_chart"
  else
    argmaxFirst "bar_chart" (chartScores query)

/-- The nested loop of identify_aggregation: for the first table entry with a
matching trigger phrase, return its tag; the inner Python loop returns on the
first matching keyword, which only depends on whether some keyword matches. -/
def aggGo (query : String) : List (String × List String) → String
  | [] => "sum"
  | (agg, kws) :: t => if kws.any (fun k => strContains query k) then agg else aggGo query t

/-- identify_aggregation of src/utils/nlp_processor.py. -/
def identify_aggregation (query : String) : String :=
  aggGo query AGGREGATION_KEYWORDS

/-- Spec-side formulation of the aggregation matcher (section 4.4 of the spec):
the first tag in table order whose trigger-phrase set has a substring match,
defaulting to sum. Written from the specification words, for comparison. -/
def find_aggregation_spec (query : String) : String :=
  (((AGGREGATION_KEYWORDS.find? (fun p => p.2.any (fun k => strContains query k))).map
      Prod.fst).getD "sum")

/-- The three variation strings generated for one column name, with the column
as associated value: the lowercased original, the lowercased original with
underscores and hyphens replaced by spaces, and a naive plural toggle.
Python str.lower and the two single-character str.replace calls are modelled
as character maps (ASCII lowering suffices for the column names considered). -/
def variationsOf (col : String) : List (String × String) :=
  let lower : List Char := col.toList.map Char.toLower
  let normalized : List Char :=
    (lower.map (fun c => if c == '_' then ' ' else c)).map (fun c => if c == '-' then ' ' else c)
  let plural : List Char :=
    if normalized.getLast? == some 's' then normalized.dropLast else normalized ++ ['s']
  [(⟨lower⟩, col), (⟨normalized⟩, col), (⟨plural⟩, col)]

/-- Insert one column variations into the variations dict. -/
def insertVariations (acc : List (String × String)) (col : String) : List (String × String) :=
  (variationsOf col).foldl (fun a kv => upsert a kv.1 kv.2) acc

/-- The column_variations dict of identify_referenced_columns. -/
def buildVariations (columns : List String) : List (String × String) :=
  columns.foldl insertVariations []

/-- One iteration of the matching loop: append the original column if the
variation occurs in the query and the column was not already collected. -/
def matchStep (query : String) (refs : List String) (kv : String × String) : List String :=
  if strContains query kv.1 && !(refs.contains kv.2) then refs ++ [kv.2] else refs

/-- identify_referenced_columns of src/utils/nlp_processor.py (query already
lowercased by the caller). -/
def identify_referenced_columns (query : String) (columns : List String) : List String :=
  (buildVariations columns).foldl (matchStep query) []

/-- Pandas column dtypes relevant to this code base. -/
inductive Dtype
  | int64
  | float64
  | boolType
  | datetime64
  | objectType
  | categoryType
deriving DecidableEq

/-- A dataframe column: its name, dtype, cell values (abstracted as strings,
enough to count distinct values), and whether pd.to_datetime succeeds on it
(a fact of the cell contents, carried as data). -/
structure Column where
  name : String
  dtype : Dtype
  values : List String
  toDatetimeOk : Bool
deriving DecidableEq

/-- A dataframe: ordered columns, the row count len(df), and df.index.name. -/
structure DataFrame where
  columns : List Column
  nrows : Nat
  indexName : Option String
deriving DecidableEq

/-- Well-formedness: every column holds one value per row. -/
def DataFrame.Wf (df : DataFrame) : Prop :=
  ∀ c ∈ df.columns, c.values.length = df.nrows

/-- The ordered column names, Python df.columns. -/
def colNames (df : DataFrame) : List String :=
  df.columns.map Column.name

/-- Python exceptions the embedded code can raise. -/
inductive PyErr
  | indexOutOfRange
  | divisionByZero
deriving DecidableEq

/-- Python df.columns[i]: the i-th column name, or an IndexError. -/
def colAt (df : DataFrame) (i : Nat) : Except PyErr String :=
  match (colNames df).get? i with
  | some n => Except.ok n
  | none => Except.error PyErr.indexOutOfRange

/-- A value of the chart-configuration dict: a string, boolean or number. -/
inductive CVal
  | s (v : String)
  | b (v : Bool)
  | n (v : Nat)
deriving DecidableEq

/-- The chart-configuration dict, in insertion order. -/
abbrev Config := List (String × CVal)

/-- Python `df.index.name or "index"`: None and the empty string are falsy. -/
def indexDisplay (df : DataFrame) : String :=
  match df.indexName with
  | none => "index"
  | some s => if s = "" then "index" else s

/-- `df.select_dtypes(include=[int64, float64])` membership test. -/
def isNumericSelect : Dtype → Bool
  | Dtype.int64 => true
  | Dtype.float64 => true
  | _ => false

/-- `df.select_dtypes(include=[object, category, bool])` membership test. -/
def isCategoricalSelect : Dtype → Bool
  | Dtype.objectType => true
  | Dtype.categoryType => true
  | Dtype.boolType => true
  | _ => false

/-- numeric_cols computed by process_natural_language_query. -/
def numericCols (df : DataFrame) : List String :=
  (df.columns.filter (fun c => isNumericSelect c.dtype)).map Column.name

/-- categorical_cols computed by process_natural_language_query. -/
def categoricalCols (df : DataFrame) : List String :=
  (df.columns.filter (fun c => isCategoricalSelect c.dtype)).map Column.name

/-- temporal_cols computed by process_natural_language_query: the datetime64
columns; when there are none, the categorical-dtype columns on which
pd.to_datetime succeeds, in column order. -/
def temporalCols (df : DataFrame) : List String :=
  if ((df.columns.filter (fun c => c.dtype == Dtype.datetime64)).map Column.name).isEmpty then
    (df.columns.filter (fun c => isCategoricalSelect c.dtype && c.toDatetimeOk)).map Column.name
  else (df.columns.filter (fun c => c.dtype == Dtype.datetime64)).map Column.name

/-- The repeated degrade snippet of the source: x is df.columns[0], the second
value is df.columns[1] when there are at least 2 columns, else df.columns[0]
again. Raises IndexError exactly when the dataframe has no columns. -/
def firstTwoFallback (df : DataFrame) : Except PyErr (String × String) :=
  match colAt df 0 with
  | Except.error e => Except.error e
  | Except.ok c0 =>
    if df.columns.length > 1 then
      match colAt df 1 with
      | Except.error e => Except.error e
      | Except.ok c1 => Except.ok (c0, c1)
    else Except.ok (c0, c0)

/-- configure_bar_chart of src/utils/nlp_processor.py. Each list access in the
source is guarded by the enclosing branch condition except the df.columns
accesses, which are modelled through colAt; guarded accesses use getD, whose
default is never reached under the guard. -/
def configure_bar_chart (config : Config) (df : DataFrame)
    (referenced_cols numeric_cols categorical_cols temporal_cols : List String)
    (aggregation : String) : Except PyErr Config :=
  let xyE : Except PyErr (String × String) :=
    if referenced_cols.length ≥ 2 then
      let cat_refs := referenced_cols.filter (fun c => categorical_cols.contains c)
      let num_refs := referenced_cols.filter (fun c => numeric_cols.contains c)
      let time_refs := referenced_cols.filter (fun c => temporal_cols.contains c)
      if !cat_refs.isEmpty && !num_refs.isEmpty then
        Except.ok (cat_refs.getD 0 "", num_refs.getD 0 "")
      else if !time_refs.isEmpty && !num_refs.isEmpty then
        Except.ok (time_refs.getD 0 "", num_refs.getD 0 "")
      else
        Except.ok (referenced_cols.getD 0 "", referenced_cols.getD 1 "")
    else
      if !categorical_cols.isEmpty && !numeric_cols.isEmpty then
        Except.ok (categorical_cols.getD 0 "", numeric_cols.getD 0 "")
      else if !temporal_cols.isEmpty && !numeric_cols.isEmpty then
        Except.ok (temporal_cols.getD 0 "", numeric_cols.getD 0 "")
      else if numeric_cols.length ≥ 2 then
        Except.ok (numeric_cols.getD 0 "", numeric_cols.getD 1 "")
      else if !numeric_cols.isEmpty then
        Except.ok (indexDisplay df, numeric_cols.getD 0 "")
      else
        firstTwoFallback df
  match xyE with
  | Except.error e => Except.error e
  | Except.ok (x, y) =>
    let cfg1 := upsert (upsert config "x" (CVal.s x)) "y" (CVal.s y)
    let cfg2 :=
      if categorical_cols.length > 1 && categorical_cols.getD 0 "" != x then
        upsert cfg1 "color" (CVal.s (categorical_cols.getD 0 ""))
      else cfg1
    Except.ok (upsert cfg2 "orientation" (CVal.s "Vertical"))

/-- configure_line_chart of src/utils/nlp_processor.py. -/
def configure_line_chart (config : Config) (df : DataFrame)
    (referenced_cols numeric_cols categorical_cols temporal_cols : List String)
    (aggregation : String) : Except PyErr Config :=
  let xyE : Except PyErr (String × String) :=
    if !temporal_cols.isEmpty then
      let x := temporal_cols.getD 0 ""
      let num_refs := referenced_cols.filter (fun c => numeric_cols.contains c)
      if !num_refs.isEmpty then Except.ok (x, num_refs.getD 0 "")
      else if !numeric_cols.isEmpty then Except.ok (x, numeric_cols.getD 0 "")
      else if !referenced_cols.isEmpty then Except.ok (x, referenced_cols.getD 0 "")
      else
        match colAt df 0 with
        | Except.error e => Except.error e
        | Except.ok c0 => Except.ok (x, c0)
    else
      if numeric_cols.length ≥ 2 then
        let num_refs := referenced_cols.filter (fun c => numeric_cols.contains c)
        if num_refs.length ≥ 2 then Except.ok (num_refs.getD 0 "", num_refs.getD 1 "")
        else Except.ok (numeric_cols.getD 0 "", numeric_cols.getD 1 "")
      else if !numeric_cols.isEmpty then
        Except.ok (indexDisplay df, numeric_cols.getD 0 "")
      else
        firstTwoFallback df
  match xyE with
  | Except.error e => Except.error e
  | Except.ok (x, y) =>
    let cfg1 := upsert (upsert config "x" (CVal.s x)) "y" (CVal.s y)
    let cfg2 :=
      if !categorical_cols.isEmpty then
        let cat_refs := referenced_cols.filter (fun c => categorical_cols.contains c)
        if !cat_refs.isEmpty then upsert cfg1 "color" (CVal.s (cat_refs.getD 0 ""))
        else upsert cfg1 "color" (CVal.s (categorical_cols.getD 0 ""))
      else cfg1
    Except.ok (upsert cfg2 "markers" (CVal.b true))

/-- configure_scatter_plot of src/utils/nlp_processor.py, including the inline
degrade-to-bar-chart branch (which does not call configure_bar_chart). -/
def configure_scatter_plot (config : Config) (df : DataFrame)
    (referenced_cols numeric_cols : List String) : Except PyErr Config :=
  if numeric_cols.length ≥ 2 then
    let num_refs := referenced_cols.filter (fun c => numeric_cols.contains c)
    let xy : String × String :=
      if num_refs.length ≥ 2 then (num_refs.getD 0 "", num_refs.getD 1 "")
      else (numeric_cols.getD 0 "", numeric_cols.getD 1 "")
    let cfg1 := upsert (upsert config "x" (CVal.s xy.1)) "y" (CVal.s xy.2)
    let cfg2 :=
      if numeric_cols.length > 2 && num_refs.length > 2 then
        upsert cfg1 "color" (CVal.s (num_refs.getD 2 ""))
      else if numeric_cols.length > 2 then
        upsert cfg1 "color" (CVal.s (numeric_cols.getD 2 ""))
      else cfg1
    Except.ok cfg2
  else
    match firstTwoFallback df with
    | Except.error e => Except.error e
    | Except.ok (c0, c1) =>
      Except.ok (upsert (upsert (upsert config "chart_type" (CVal.s "bar_chart"))
        "x" (CVal.s c0))
        "y" (CVal.s (if !numeric_cols.isEmpty then numeric_cols.getD 0 "" else c1)))

/-- configure_pie_chart of src/utils/nlp_processor.py. -/
def configure_pie_chart (config : Config) (df : DataFrame)
    (referenced_cols numeric_cols categorical_cols : List String)
    (aggregation : String) : Except PyErr Config :=
  if !categorical_cols.isEmpty && !numeric_cols.isEmpty then
    let cat_refs := referenced_cols.filter (fun c => categorical_cols.contains c)
    let num_refs := referenced_cols.filter (fun c => numeric_cols.contains c)
    let nv : String × String :=
      if !cat_refs.isEmpty && !num_refs.isEmpty then (cat_refs.getD 0 "", num_refs.getD 0 "")
      else (categorical_cols.getD 0 "", numeric_cols.getD 0 "")
    Except.ok (upsert (upsert (upsert config "names" (CVal.s nv.1)) "values" (CVal.s nv.2))
      "hole" (CVal.n 0))
  else
    match firstTwoFallback df with
    | Except.error e => Except.error e
    | Except.ok (c0, c1) =>
      Except.ok (upsert (upsert (upsert config "chart_type" (CVal.s "bar_chart"))
        "x" (CVal.s c0))
        "y" (CVal.s (if !numeric_cols.isEmpty then numeric_cols.getD 0 "" else c1)))

/-- configure_histogram of src/utils/nlp_processor.py. -/
def configure_histogram (config : Config) (df : DataFrame)
    (referenced_cols numeric_cols : List String) : Except PyErr Config :=
  if !numeric_cols.isEmpty then
    let num_refs := referenced_cols.filter (fun c => numeric_cols.contains c)
    let x := if !num_refs.isEmpty then num_refs.getD 0 "" else numeric_cols.getD 0 ""
    Except.ok (upsert (upsert config "x" (CVal.s x)) "bins" (CVal.n 20))
  else
    match firstTwoFallback df with
    | Except.error e => Except.error e
    | Except.ok (c0, c1) =>
      Except.ok (upsert (upsert (upsert config "chart_type" (CVal.s "bar_chart"))
        "x" (CVal.s c0)) "y" (CVal.s c1))

/-- configure_box_plot of src/utils/nlp_processor.py. -/
def configure_box_plot (config : Config) (df : DataFrame)
    (referenced_cols numeric_cols categorical_cols : List String) : Except PyErr Config :=
  if !numeric_cols.isEmpty then
    let num_refs := referenced_cols.filter (fun c => numeric_cols.contains c)
    let cat_refs := referenced_cols.filter (fun c => categorical_cols.contains c)
    let y := if !num_refs.isEmpty then num_refs.getD 0 "" else numeric_cols.getD 0 ""
    let x :=
      if !cat_refs.isEmpty then cat_refs.getD 0 ""
      else if !categorical_cols.isEmpty then categorical_cols.getD 0 ""
      else "None"
    Except.ok (upsert (upsert config "y" (CVal.s y)) "x" (CVal.s x))
  else
    match firstTwoFallback df with
    | Except.error e => Except.error e
    | Except.ok (c0, c1) =>
      Except.ok (upsert (upsert (upsert config "chart_type" (CVal.s "bar_chart"))
        "x" (CVal.s c0)) "y" (CVal.s c1))

/-- configure_heatmap of src/utils/nlp_processor.py. -/
def configure_heatmap (config : Config) (df : DataFrame)
    (referenced_cols numeric_cols categorical_cols : List String) : Except PyErr Config :=
  if categorical_cols.length ≥ 2 && !numeric_cols.isEmpty then
    let cat_refs := referenced_cols.filter (fun c => categorical_cols.contains c)
    let num_refs := referenced_cols.filter (fun c => numeric_cols.contains c)
    let xyv : String × String × String :=
      if cat_refs.length ≥ 2 && !num_refs.isEmpty then
        (cat_refs.getD 0 "", cat_refs.getD 1 "", num_refs.getD 0 "")
      else if cat_refs.length ≥ 2 then
        (cat_refs.getD 0 "", cat_refs.getD 1 "", numeric_cols.getD 0 "")
      else if !cat_refs.isEmpty && !num_refs.isEmpty then
        (cat_refs.getD 0 "",
         if categorical_cols.getD 0 "" != cat_refs.getD 0 "" then categorical_cols.getD 0 ""
         else categorical_cols.getD 1 "",
         num_refs.getD 0 "")
      else
        (categorical_cols.getD 0 "", categorical_cols.getD 1 "", numeric_cols.getD 0 "")
    Except.ok (upsert (upsert (upsert (upsert config "x" (CVal.s xyv.1)) "y" (CVal.s xyv.2.1))
      "values" (CVal.s xyv.2.2)) "color_scale" (CVal.s "Viridis"))
  else
    let xE : Except PyErr String :=
      if !categorical_cols.isEmpty then Except.ok (categorical_cols.getD 0 "") else colAt df 0
    match xE with
    | Except.error e => Except.error e
    | Except.ok x0 =>
      let cfg1 := upsert (upsert config "chart_type" (CVal.s "bar_chart")) "x" (CVal.s x0)
      if !numeric_cols.isEmpty then
        Except.ok (upsert cfg1 "y" (CVal.s (numeric_cols.getD 0 "")))
      else if df.columns.length > 1 then
        match colAt df 1 with
        | Except.error e => Except.error e
        | Except.ok c1 => Except.ok (upsert cfg1 "y" (CVal.s c1))
      else
        match colAt df 0 with
        | Except.error e => Except.error e
        | Except.ok c0 => Except.ok (upsert cfg1 "y" (CVal.s c0))

/-- Python str.capitalize: first character uppercased, the rest lowercased. -/
def capitalizeStr (s : String) : String :=
  match s.toList with
  | [] => s
  | c :: t => ⟨c.toUpper :: t.map Char.toLower⟩

/-- process_natural_language_query of src/utils/nlp_processor.py. The source
also tokenizes the query and filters stopwords, but the filtered token list is
never read afterwards, so it is not modelled. -/
def process_natural_language_query (query : String) (df : DataFrame) : Except PyErr Config :=
  let q : String := ⟨query.toList.map Char.toLower⟩
  let numeric_cols := numericCols df
  let categorical_cols := categoricalCols df
  let temporal_cols := temporalCols df
  let viz_type := identify_visualization_type q
  let referenced_cols := identify_referenced_columns q (colNames df)
  let aggregation := identify_aggregation q
  let config : Config := [("chart_type", CVal.s viz_type), ("title", CVal.s (capitalizeStr q))]
  if viz_type == "bar_chart" then
    configure_bar_chart config df referenced_cols numeric_cols categorical_cols temporal_cols
      aggregation
  else if viz_type == "line_chart" then
    configure_line_chart config df referenced_cols numeric_cols categorical_cols temporal_cols
      aggregation
  else if viz_type == "scatter_plot" then
    configure_scatter_plot config df referenced_cols numeric_cols
  else if viz_type == "pie_chart" then
    configure_pie_chart config df referenced_cols numeric_cols categorical_cols aggregation
  else if viz_type == "histogram" then
    configure_histogram config df referenced_cols numeric_cols
  else if viz_type == "box_plot" then
    configure_box_plot config df referenced_cols numeric_cols categorical_cols
  else if viz_type == "heatmap" then
    configure_heatmap config df referenced_cols numeric_cols categorical_cols
  else Except.ok config

/-- pandas is_numeric_dtype: true for integer, float and boolean dtypes
(pandas counts bool as a numeric dtype). -/
def dtypeIsNumeric (d : Dtype) : Bool :=
  d == Dtype.int64 || d == Dtype.float64 || d == Dtype.boolType

/-- pandas is_datetime64_any_dtype. -/
def dtypeIsDatetime (d : Dtype) : Bool :=
  d == Dtype.datetime64

/-- pandas is_bool_dtype. -/
def dtypeIsBool (d : Dtype) : Bool :=
  d == Dtype.boolType

/-- pandas Series.nunique: the number of distinct cell values. -/
def nuniqueOf (c : Column) : Nat :=
  c.values.eraseDups.length

/-- The per-column body of get_column_types in src/utils/data_processor.py.
total_count is len(df). The Python `or` is short-circuiting, so the division
unique_count/total_count is evaluated only when unique_count < 20 fails; a
zero total_count then raises ZeroDivisionError. The float comparison with 0.1
is modelled over the rationals. -/
def classifyColumn (total_count : Nat) (c : Column) : Except PyErr String :=
  if dtypeIsNumeric c.dtype then Except.ok "numeric"
  else if dtypeIsDatetime c.dtype then Except.ok "datetime"
  else if dtypeIsBool c.dtype then Except.ok "boolean"
  else
    let unique_count := nuniqueOf c
    if unique_count < 20 then Except.ok "categorical"
    else if total_count = 0 then Except.error PyErr.divisionByZero
    else if (unique_count : ℚ) / (total_count : ℚ) < 1 / 10 then Except.ok "categorical"
    else Except.ok "text"

/-- The loop of get_column_types: classify each column in order, stopping at
the first raised error; the Python dict keyed by column name is modelled as an
association list in column order (column names are unique in a dataframe). -/
def get_column_types_go (n : Nat) : List Column → Except PyErr (List (String × String))
  | [] => Except.ok []
  | c :: t =>
    match classifyColumn n c with
    | Except.error e => Except.error e
    | Except.ok ty =>
      match get_column_types_go n t with
      | Except.error e => Except.error e
      | Except.ok rest => Except.ok ((c.name, ty) :: rest)

/-- get_column_types of src/utils/data_processor.py. -/
def get_column_types (df : DataFrame) : Except PyErr (List (String × String)) :=
  get_column_types_go df.nrows df.columns

/-- The seven supported chart-type tags, in table order. -/
def supportedChartTypes : List String :=
  ["bar_chart", "line_chart", "scatter_plot", "pie_chart", "histogram", "box_plot", "heatmap"]

/-- The column-binding soundness invariant on a chart configuration: every
string stored under a column-role key names a dataset column, except that x
may be the index display name (bar/line single-numeric fallback) or the
box-plot literal sentinel None. -/
def BindingsOk (df : DataFrame) (cfg : Config) : Prop :=
  (∀ s, lookupKey cfg "x" = some (CVal.s s) →
    s ∈ colNames df ∨ s = indexDisplay df ∨ s = "None") ∧
  (∀ s, lookupKey cfg "y" = some (CVal.s s) → s ∈ colNames df) ∧
  (∀ s, lookupKey cfg "color" = some (CVal.s s) → s ∈ colNames df) ∧
  (∀ s, lookupKey cfg "names" = some (CVal.s s) → s ∈ colNames df) ∧
  (∀ s, lookupKey cfg "values" = some (CVal.s s) → s ∈ colNames df)

/-- The keys of an association list. -/
def keysOf {β : Type} (l : List (String × β)) : List String :=
  l.map Prod.fst

/-- The variation strings generated for one column. -/
def variationKeys (col : String) : List String :=
  (variationsOf col).map Prod.fst

/-- No two distinct columns of the list generate a common variation string. -/
def DisjointVariations (columns : List String) : Prop :=
  columns.Pairwise (fun a b => ∀ k ∈ variationKeys a, k ∉ variationKeys b)

/-- The variations dict contribution of a single column, in isolation. -/
def blockOf (col : String) : List (String × String) :=
  insertVariations [] col

/-- Does some variation of the column occur as a substring of the query? -/
def blockMatches (query col : String) : Bool :=
  (blockOf col).any (fun p => strContains query p.1)

/-- A dataset with a single numeric column, used at concrete inputs. -/
def dfValue : DataFrame :=
  ⟨[⟨"value", Dtype.int64, ["1", "2"], false⟩], 2, none⟩

/-- A dataset whose first column is the only numeric one, followed by two
categorical columns, used at concrete inputs. -/
def dfScatter : DataFrame :=
  ⟨[⟨"n", Dtype.int64, ["1"], false⟩,
    ⟨"c1", Dtype.objectType, ["a"], false⟩,
    ⟨"c2", Dtype.objectType, ["b"], false⟩], 1, none⟩

/-- A dataset with a single non-numeric column, used at concrete inputs. -/
def dfOneText : DataFrame :=
  ⟨[⟨"name", Dtype.objectType, ["u", "v"], false⟩], 2, none⟩

/-- A zero-row dataset with one object-dtype column, used at concrete inputs. -/
def dfZeroRows : DataFrame :=
  ⟨[⟨"label", Dtype.objectType, [], false⟩, ⟨"amount", Dtype.float64, [], false⟩], 0, none⟩

/-- A boolean-dtype column, used at concrete inputs. -/
def flagColumn : Column :=
  ⟨"flag", Dtype.boolType, ["True", "False"], false⟩

example : identify_visualization_type "show me a line chart of sales" = "line_chart" := by decide
example : identify_visualization_type "revenue over time" = "line_chart" := by decide
example : identify_visualization_type "revenue by region" = "bar_chart" := by decide
example : identify_aggregation "average revenue" = "average" := by decide
example : identify_aggregation "revenue by region" = "sum" := by decide
example : identify_referenced_columns "cat dog" ["cat", "dog", "cats"] = ["cats", "dog"] := by decide

theorem lookupKey_upsert_self {β : Type} (l : List (String × β)) (k : String) (v : β) :
    lookupKey (upsert l k v) k = some v := by
  induction l with
  | nil => simp [upsert, lookupKey]
  | cons p t ih =>
    obtain ⟨k1, v1⟩ := p
    by_cases hk : k1 = k
    · simp [upsert, hk, lookupKey]
    · simp [upsert, hk, lookupKey, ih]

theorem lookupKey_upsert_ne {β : Type} (l : List (String × β)) {k k2 : String} (v : β)
    (h : k2 ≠ k) : lookupKey (upsert l k v) k2 = lookupKey l k2 := by
  induction l with
  | nil => simp [upsert, lookupKey, Ne.symm h]
  | cons p t ih =>
    obtain ⟨k1, v1⟩ := p
    by_cases hk : k1 = k
    · subst hk
      simp [upsert, lookupKey, Ne.symm h]
    · simp [upsert, hk, lookupKey, ih]

theorem foldl_max_zero : ∀ l : List Nat, (∀ x ∈ l, x = 0) → l.foldl Nat.max 0 = 0 := by
  intro l
  induction l with
  | nil => intro _; rfl
  | cons a t ih =>
    intro h
    have ha : a = 0 := h a (by simp)
    simp [List.foldl, ha]
    exact ih (fun x hx => h x (by simp [hx]))

theorem getD_mem_of_lt {α : Type} : ∀ {l : List α} {i : Nat}, i < l.length → ∀ d : α,
    l.getD i d ∈ l := by
  intro l
  induction l with
  | nil => intro i h d; simp at h
  | cons a t ih =>
    intro i h d
    cases i with
    | zero => simp
    | succ j =>
      simp only [List.getD_cons_succ]
      exact List.mem_cons_of_mem a (ih (Nat.lt_of_succ_lt_succ h) d)

theorem contains_true_iff {l : List String} {a : String} : l.contains a = true ↔ a ∈ l :=
  List.elem_iff

theorem colAt_ok_mem {df : DataFrame} {i : Nat} {s : String}
    (h : colAt df i = Except.ok s) : s ∈ colNames df := by
  unfold colAt at h
  cases hg : (colNames df).get? i with
  | none => rw [hg] at h; cases h
  | some n =>
    rw [hg] at h
    cases h
    exact List.get?_mem hg

theorem firstTwoFallback_nil {df : DataFrame} (h : df.columns = []) :
    firstTwoFallback df = Except.error PyErr.indexOutOfRange := by
  have hc0 : colAt df 0 = Except.error PyErr.indexOutOfRange := by
    unfold colAt colNames
    rw [h]
    rfl
  simp [firstTwoFallback, hc0]

theorem firstTwoFallback_one {df : DataFrame} {c0 : Column} (h : df.columns = [c0]) :
    firstTwoFallback df = Except.ok (c0.name, c0.name) := by
  have hc0 : colAt df 0 = Except.ok c0.name := by
    unfold colAt colNames
    rw [h]
    rfl
  have hlen : ¬ (df.columns.length > 1) := by rw [h]; simp
  simp [firstTwoFallback, hc0, hlen]

theorem firstTwoFallback_two {df : DataFrame} {c0 c1 : Column} {t : List Column}
    (h : df.columns = c0 :: c1 :: t) :
    firstTwoFallback df = Except.ok (c0.name, c1.name) := by
  have hc0 : colAt df 0 = Except.ok c0.name := by
    unfold colAt colNames
    rw [h]
    rfl
  have hc1 : colAt df 1 = Except.ok c1.name := by
    unfold colAt colNames
    rw [h]
    rfl
  have hlen : df.columns.length > 1 := by
    rw [h, List.length_cons, List.length_cons]
    omega
  simp [firstTwoFallback, hc0, hc1, hlen]

theorem firstTwoFallback_mem {df : DataFrame} {a b : String}
    (h : firstTwoFallback df = Except.ok (a, b)) : a ∈ colNames df ∧ b ∈ colNames df := by
  cases hcols : df.columns with
  | nil => rw [firstTwoFallback_nil hcols] at h; cases h
  | cons c0 t =>
    cases t with
    | nil =>
      rw [firstTwoFallback_one hcols] at h
      simp only [Except.ok.injEq, Prod.mk.injEq] at h
      obtain ⟨ha, hb⟩ := h
      subst ha
      subst hb
      unfold colNames
      rw [hcols]
      simp
    | cons c1 t2 =>
      rw [firstTwoFallback_two hcols] at h
      simp only [Except.ok.injEq, Prod.mk.injEq] at h
      obtain ⟨ha, hb⟩ := h
      subst ha
      subst hb
      unfold colNames
      rw [hcols]
      simp

theorem numericCols_subset (df : DataFrame) : numericCols df ⊆ colNames df := by
  unfold numericCols colNames
  exact List.map_subset _ (List.filter_sublist _).subset

theorem categoricalCols_subset (df : DataFrame) : categoricalCols df ⊆ colNames df := by
  unfold categoricalCols colNames
  exact List.map_subset _ (List.filter_sublist _).subset

theorem temporalCols_subset (df : DataFrame) : temporalCols df ⊆ colNames df := by
  unfold temporalCols colNames
  split
  · exact List.map_subset _ (List.filter_sublist _).subset
  · exact List.map_subset _ (List.filter_sublist _).subset

/-- C10: for a fixed query, dataset, referenced-column list and column-type
partition, the configurations returned by configure_bar_chart,
configure_line_chart and configure_pie_chart do not depend on the value of
the aggregation argument: the resolved aggregation tag never influences any
field of the returned chart configuration. -/
theorem C10_aggregation_independent (config : Config) (df : DataFrame)
    (referenced_cols numeric_cols categorical_cols temporal_cols : List String)
    (agg1 agg2 : String) :
    configure_bar_chart config df referenced_cols numeric_cols categorical_cols temporal_cols
        agg1 =
      configure_bar_chart config df referenced_cols numeric_cols categorical_cols temporal_cols
        agg2 ∧
    configure_line_chart config df referenced_cols numeric_cols categorical_cols temporal_cols
        agg1 =
      configure_line_chart config df referenced_cols numeric_cols categorical_cols temporal_cols
        agg2 ∧
    configure_pie_chart config df referenced_cols numeric_cols categorical_cols agg1 =
      configure_pie_chart config df referenced_cols numeric_cols categorical_cols agg2 :=
  ⟨rfl, rfl, rfl⟩

/-- C4 counterexample: a boolean-dtype column is labelled numeric, not boolean,
because the pandas numeric-dtype test counts booleans as numeric and runs
first; the claim as stated (boolean dtype labelled boolean) is false. -/
theorem C4_counterexample :
    flagColumn.dtype = Dtype.boolType ∧
    classifyColumn 2 flagColumn = Except.ok "numeric" ∧
    classifyColumn 2 flagColumn ≠ Except.ok "boolean" := by decide

theorem dtypeIsBool_false_of_not_numeric {d : Dtype} (h : dtypeIsNumeric d = false) :
    dtypeIsBool d = false := by
  cases d <;> simp_all [dtypeIsNumeric, dtypeIsBool]

theorem classifyColumn_numeric (total_count : Nat) (c : Column)
    (h : dtypeIsNumeric c.dtype = true) :
    classifyColumn total_count c = Except.ok "numeric" := by
  unfold classifyColumn
  rw [h]
  rfl

theorem classifyColumn_datetime (total_count : Nat) (c : Column)
    (h1 : dtypeIsNumeric c.dtype = false) (h2 : dtypeIsDatetime c.dtype = true) :
    classifyColumn total_count c = Except.ok "datetime" := by
  unfold classifyColumn
  rw [h1, h2]
  rfl

theorem classifyColumn_not_nd (total_count : Nat) (c : Column)
    (h1 : dtypeIsNumeric c.dtype = false) (h2 : dtypeIsDatetime c.dtype = false) :
    classifyColumn total_count c =
      (if nuniqueOf c < 20 then Except.ok "categorical"
       else if total_count = 0 then Except.error PyErr.divisionByZero
       else if (nuniqueOf c : ℚ) / (total_count : ℚ) < 1 / 10 then Except.ok "categorical"
       else Except.ok "text") := by
  have hb := dtypeIsBool_false_of_not_numeric h1
  unfold classifyColumn
  rw [h1, h2, hb]
  rfl

/-- C4 amended: classification labels each column by the first matching rule,
where the numeric rule (pandas is_numeric_dtype) already captures boolean
dtypes, so a boolean-dtype column is labelled numeric and the boolean label is
unreachable; otherwise datetime dtype gives datetime, and the remaining
columns follow the cardinality rule (u < 20 or u/n < 0.1 gives categorical,
else text). -/
theorem C4_amended (total_count : Nat) (c : Column) (hn : 0 < total_count) :
    (c.dtype = Dtype.boolType → classifyColumn total_count c = Except.ok "numeric") ∧
    (dtypeIsNumeric c.dtype = true → classifyColumn total_count c = Except.ok "numeric") ∧
    (dtypeIsNumeric c.dtype = false → dtypeIsDatetime c.dtype = true →
      classifyColumn total_count c = Except.ok "datetime") ∧
    (dtypeIsNumeric c.dtype = false → dtypeIsDatetime c.dtype = false →
      classifyColumn total_count c =
        Except.ok (if nuniqueOf c < 20 ∨ ((nuniqueOf c : ℚ) / (total_count : ℚ) < 1 / 10)
          then "categorical" else "text")) ∧
    classifyColumn total_count c ≠ Except.ok "boolean" := by
  have hne : total_count ≠ 0 := Nat.pos_iff_ne_zero.mp hn
  refine ⟨?_, ?_, ?_, ?_, ?_⟩
  · intro hb
    exact classifyColumn_numeric total_count c (by rw [hb]; rfl)
  · exact classifyColumn_numeric total_count c
  · exact classifyColumn_datetime total_count c
  · intro h1 h2
    rw [classifyColumn_not_nd total_count c h1 h2]
    by_cases hu : nuniqueOf c < 20
    · rw [if_pos hu, if_pos (Or.inl hu)]
    · rw [if_neg hu, if_neg hne]
      by_cases hd : ((nuniqueOf c : ℚ) / (total_count : ℚ) < 1 / 10)
      · rw [if_pos hd, if_pos (Or.inr hd)]
      · rw [if_neg hd, if_neg (by tauto)]
  · cases hb : dtypeIsNumeric c.dtype with
    | true =>
      rw [classifyColumn_numeric total_count c hb]
      decide
    | false =>
      cases h2 : dtypeIsDatetime c.dtype with
      | true =>
        rw [classifyColumn_datetime total_count c hb h2]
        decide
      | false =>
        rw [classifyColumn_not_nd total_count c hb h2]
        by_cases hu : nuniqueOf c < 20
        · rw [if_pos hu]; decide
        · rw [if_neg hu, if_neg hne]
          by_cases hd : ((nuniqueOf c : ℚ) / (total_count : ℚ) < 1 / 10)
          · rw [if_pos hd]; decide
          · rw [if_neg hd]; decide

/-- C4 witness: the amended theorem applied to a concrete boolean column. -/
theorem C4_amended_witness :
    0 < 2 ∧ classifyColumn 2 flagColumn = Except.ok "numeric" :=
  ⟨by decide, (C4_amended 2 flagColumn (by decide)).1 rfl⟩

theorem classifyColumn_empty (n : Nat) (c : Column) (hv : c.values = []) :
    classifyColumn n c =
      Except.ok (if dtypeIsNumeric c.dtype then "numeric"
        else if dtypeIsDatetime c.dtype then "datetime"
        else if dtypeIsBool c.dtype then "boolean"
        else "categorical") := by
  have hu : nuniqueOf c < 20 := by
    unfold nuniqueOf
    rw [hv]
    decide
  cases h1 : dtypeIsNumeric c.dtype with
  | true =>
    rw [classifyColumn_numeric n c h1]
    rfl
  | false =>
    have h3 := dtypeIsBool_false_of_not_numeric h1
    cases h2 : dtypeIsDatetime c.dtype with
    | true =>
      rw [classifyColumn_datetime n c h1 h2]
      rfl
    | false =>
      rw [classifyColumn_not_nd n c h1 h2, if_pos hu, h3]
      rfl

theorem get_column_types_go_empty (n : Nat) :
    ∀ cols : List Column, (∀ c ∈ cols, c.values = []) →
      get_column_types_go n cols =
        Except.ok (cols.map fun c =>
          (c.name,
            if dtypeIsNumeric c.dtype then "numeric"
            else if dtypeIsDatetime c.dtype then "datetime"
            else if dtypeIsBool c.dtype then "boolean"
            else "categorical")) := by
  intro cols
  induction cols with
  | nil => intro _; rfl
  | cons c t ih =>
    intro h
    have hc := classifyColumn_empty n c (h c (by simp))
    have ht := ih (fun d hd => h d (by simp [hd]))
    simp [get_column_types_go, hc, ht]

/-- C9: on a zero-row dataset, column classification raises no division error
(the 0/0 cardinality quotient is short-circuited away by u < 20), and every
column that is not of numeric, datetime or boolean dtype is labelled
categorical. -/
theorem C9_zero_rows (df : DataFrame) (hwf : df.Wf) (h0 : df.nrows = 0) :
    get_column_types df =
      Except.ok (df.columns.map fun c =>
        (c.name,
          if dtypeIsNumeric c.dtype then "numeric"
          else if dtypeIsDatetime c.dtype then "datetime"
          else if dtypeIsBool c.dtype then "boolean"
          else "categorical")) := by
  unfold get_column_types
  apply get_column_types_go_empty
  intro c hc
  have := hwf c hc
  rw [h0] at this
  exact List.length_eq_zero.mp this

/-- C9 witness: the theorem applied to a concrete zero-row dataset with an
object-dtype column and a numeric column. -/
theorem C9_witness :
    dfZeroRows.Wf ∧ dfZeroRows.nrows = 0 ∧
    get_column_types dfZeroRows =
      Except.ok [("label", "categorical"), ("amount", "numeric")] :=
  ⟨by unfold DataFrame.Wf; decide, rfl, by
    rw [C9_zero_rows dfZeroRows (by unfold DataFrame.Wf; decide) rfl]; rfl⟩

/-- C5: when no chart-type trigger phrase occurs in the lowercased query
(every tag scores zero), the resolver returns line_chart when the query
contains "over time", "trend" or "time series", and bar_chart otherwise. -/
theorem C5_default_fallback (query : String)
    (hz : ∀ p ∈ chartScores query, p.2 = 0) :
    identify_visualization_type query =
      if strContains query "over time" || strContains query "trend" ||
          strContains query "time series" then "line_chart" else "bar_chart" := by
  have hm : maxScore query = 0 := by
    unfold maxScore
    apply foldl_max_zero
    intro x hx
    rcases List.mem_map.mp hx with ⟨p, hp, he⟩
    rw [← he]
    exact hz p hp
  unfold identify_visualization_type
  rw [hm]
  simp

/-- C5 witness: the theorem applied to concrete queries with no chart keyword,
with and without trend language. -/
theorem C5_witness :
    (∀ p ∈ chartScores "revenue over time", p.2 = 0) ∧
    identify_visualization_type "revenue over time" = "line_chart" ∧
    identify_visualization_type "revenue by region" = "bar_chart" :=
  ⟨by decide,
   by rw [C5_default_fallback "revenue over time" (by decide)]; decide,
   by rw [C5_default_fallback "revenue by region" (by decide)]; decide⟩

theorem aggGo_eq_find (query : String) :
    ∀ l : List (String × List String),
      aggGo query l =
        ((l.find? fun p => p.2.any fun k => strContains query k).map Prod.fst).getD "sum" := by
  intro l
  induction l with
  | nil => rfl
  | cons p t ih =>
    obtain ⟨agg, kws⟩ := p
    by_cases hc : (kws.any fun k => strContains query k) = true
    · simp [aggGo, hc, List.find?_cons_of_pos]
    · simp only [Bool.not_eq_true] at hc
      simp [aggGo, hc, List.find?_cons_of_neg, ih]

/-- C7: the aggregation matcher returns the first tag in table order
(sum, average, count, min, max, median) whose trigger-phrase set has a
substring match in the query, and sum when no trigger phrase matches. -/
theorem C7_first_match (query : String) :
    identify_aggregation query = find_aggregation_spec query := by
  unfold identify_aggregation find_aggregation_spec
  exact aggGo_eq_find query AGGREGATION_KEYWORDS

/-- C2 counterexample: a scatter_plot request on a dataset whose single
numeric column comes first, followed by two categorical columns, returns
chart_type bar_chart but x bound to the first dataset column (the numeric
one), not to the first categorical column required by the bar_chart rules. -/
theorem C2_counterexample :
    (numericCols dfScatter).length = 1 ∧
    categoricalCols dfScatter = ["c1", "c2"] ∧
    process_natural_language_query "scatter" dfScatter =
      Except.ok [("chart_type", CVal.s "bar_chart"), ("title", CVal.s "Scatter"),
                 ("x", CVal.s "n"), ("y", CVal.s "n")] ∧
    ("n" : String) ≠ "c1" := by decide

/-- C2 amended: on a dataset with exactly one numeric column, a scatter_plot
request degrades by overwriting chart_type to bar_chart and binding x to the
first dataset column verbatim and y to the numeric column — the inline degrade
rule of configure_scatter_plot, not the bar_chart column-availability rules. -/
theorem C2_amended (config : Config) (df : DataFrame) (referenced_cols : List String)
    (y0 : String) (c0 : Column) (t : List Column) (hc : df.columns = c0 :: t) :
    configure_scatter_plot config df referenced_cols [y0] =
      Except.ok (upsert (upsert (upsert config "chart_type" (CVal.s "bar_chart"))
        "x" (CVal.s c0.name)) "y" (CVal.s y0)) := by
  obtain ⟨b, hf⟩ : ∃ b, firstTwoFallback df = Except.ok (c0.name, b) := by
    cases t with
    | nil => exact ⟨c0.name, firstTwoFallback_one hc⟩
    | cons c1 t2 => exact ⟨c1.name, firstTwoFallback_two hc⟩
  unfold configure_scatter_plot
  rw [hf]
  simp

/-- C2 witness: the amended theorem applied to the concrete dataset. -/
theorem C2_amended_witness :
    dfScatter.columns =
      ⟨"n", Dtype.int64, ["1"], false⟩ ::
        [⟨"c1", Dtype.objectType, ["a"], false⟩, ⟨"c2", Dtype.objectType, ["b"], false⟩] ∧
    configure_scatter_plot [] dfScatter [] ["n"] =
      Except.ok [("chart_type", CVal.s "bar_chart"), ("x", CVal.s "n"), ("y", CVal.s "n")] :=
  ⟨rfl, by
    rw [C2_amended [] dfScatter [] "n" ⟨"n", Dtype.int64, ["1"], false⟩
      [⟨"c1", Dtype.objectType, ["a"], false⟩, ⟨"c2", Dtype.objectType, ["b"], false⟩] rfl]
    rfl⟩

/-- C8 counterexample: the bar_chart fallback is exercised on a one-column
dataset (fewer than 2 columns) and completes without any out-of-range access,
binding both x and y to the single column; the claim that fewer than 2 columns
always faults is false. -/
theorem C8_counterexample :
    dfOneText.columns.length < 2 ∧
    process_natural_language_query "" dfOneText =
      Except.ok [("chart_type", CVal.s "bar_chart"), ("title", CVal.s ""),
                 ("x", CVal.s "name"), ("y", CVal.s "name"),
                 ("orientation", CVal.s "Vertical")] := by decide

/-- C8 amended: the fallback ("first two dataset columns") of the bar chart
configurator and of the scatter degrade path raises an index-out-of-range
fault exactly when the dataset has zero columns; with one column the guarded
second access is skipped and the fallback completes. -/
theorem C8_amended (config : Config) (df : DataFrame)
    (referenced_cols categorical_cols temporal_cols : List String) (aggregation : String)
    (hrefs : referenced_cols.length < 2) :
    (configure_bar_chart config df referenced_cols [] categorical_cols temporal_cols aggregation
        = Except.error PyErr.indexOutOfRange ↔ df.columns = []) ∧
    (configure_scatter_plot config df referenced_cols [] = Except.error PyErr.indexOutOfRange
        ↔ df.columns = []) := by
  have h2 : ¬ (referenced_cols.length ≥ 2) := by omega
  cases hcols : df.columns with
  | nil =>
    have hf := firstTwoFallback_nil hcols
    constructor <;> simp [configure_bar_chart, configure_scatter_plot, h2, hf, hcols]
  | cons c0 t =>
    cases t with
    | nil =>
      have hf := firstTwoFallback_one hcols
      constructor <;> simp [configure_bar_chart, configure_scatter_plot, h2, hf, hcols]
    | cons c1 t2 =>
      have hf := firstTwoFallback_two hcols
      constructor <;> simp [configure_bar_chart, configure_scatter_plot, h2, hf, hcols]

/-- C8 witness: the amended theorem applied at concrete inputs — a zero-column
dataset faults, the one-column dataset does not. -/
theorem C8_amended_witness :
    ([] : List String).length < 2 ∧
    configure_bar_chart [] (DataFrame.mk [] 0 none) [] [] [] [] "sum" =
      Except.error PyErr.indexOutOfRange ∧
    configure_bar_chart [] dfOneText [] [] ["name"] [] "sum" ≠
      Except.error PyErr.indexOutOfRange :=
  ⟨by decide,
   (C8_amended [] (DataFrame.mk [] 0 none) [] [] [] "sum" (by decide)).1.mpr rfl,
   fun h =>
     List.cons_ne_nil _ _ ((C8_amended [] dfOneText [] ["name"] [] "sum" (by decide)).1.mp h)⟩

/-- C6 counterexample: with columns cat, dog, cats, the plural variation of
cats collides with the entry of cat, so the query "cat dog" returns
cats before dog — the output is not ordered by input column order. -/
theorem C6_counterexample :
    identify_referenced_columns "cat dog" ["cat", "dog", "cats"] = ["cats", "dog"] ∧
    ¬ (identify_referenced_columns "cat dog" ["cat", "dog", "cats"]).Sublist
        ["cat", "dog", "cats"] := by decide

theorem BindingsOk_upsert_other {df : DataFrame} {cfg : Config} {k : String} {v : CVal}
    (hk1 : k ≠ "x") (hk2 : k ≠ "y") (hk3 : k ≠ "color") (hk4 : k ≠ "names") (hk5 : k ≠ "values")
    (h : BindingsOk df cfg) : BindingsOk df (upsert cfg k v) := by
  obtain ⟨h1, h2, h3, h4, h5⟩ := h
  refine ⟨?_, ?_, ?_, ?_, ?_⟩
  · intro s hs
    rw [lookupKey_upsert_ne cfg v (Ne.symm hk1)] at hs
    exact h1 s hs
  · intro s hs
    rw [lookupKey_upsert_ne cfg v (Ne.symm hk2)] at hs
    exact h2 s hs
  · intro s hs
    rw [lookupKey_upsert_ne cfg v (Ne.symm hk3)] at hs
    exact h3 s hs
  · intro s hs
    rw [lookupKey_upsert_ne cfg v (Ne.symm hk4)] at hs
    exact h4 s hs
  · intro s hs
    rw [lookupKey_upsert_ne cfg v (Ne.symm hk5)] at hs
    exact h5 s hs

theorem BindingsOk_upsert_x {df : DataFrame} {cfg : Config} {s0 : String}
    (hs : s0 ∈ colNames df ∨ s0 = indexDisplay df ∨ s0 = "None")
    (h : BindingsOk df cfg) : BindingsOk df (upsert cfg "x" (CVal.s s0)) := by
  obtain ⟨h1, h2, h3, h4, h5⟩ := h
  refine ⟨?_, ?_, ?_, ?_, ?_⟩
  · intro s hsx
    rw [lookupKey_upsert_self] at hsx
    cases hsx
    exact hs
  · intro s hsx
    rw [lookupKey_upsert_ne cfg _ (by decide)] at hsx
    exact h2 s hsx
  · intro s hsx
    rw [lookupKey_upsert_ne cfg _ (by decide)] at hsx
    exact h3 s hsx
  · intro s hsx
    rw [lookupKey_upsert_ne cfg _ (by decide)] at hsx
    exact h4 s hsx
  · intro s hsx
    rw [lookupKey_upsert_ne cfg _ (by decide)] at hsx
    exact h5 s hsx

theorem BindingsOk_upsert_y {df : DataFrame} {cfg : Config} {s0 : String}
    (hs : s0 ∈ colNames df) (h : BindingsOk df cfg) :
    BindingsOk df (upsert cfg "y" (CVal.s s0)) := by
  obtain ⟨h1, h2, h3, h4, h5⟩ := h
  refine ⟨?_, ?_, ?_, ?_, ?_⟩
  · intro s hsx
    rw [lookupKey_upsert_ne cfg _ (by decide)] at hsx
    exact h1 s hsx
  · intro s hsx
    rw [lookupKey_upsert_self] at hsx
    cases hsx
    exact hs
  · intro s hsx
    rw [lookupKey_upsert_ne cfg _ (by decide)] at hsx
    exact h3 s hsx
  · intro s hsx
    rw [lookupKey_upsert_ne cfg _ (by decide)] at hsx
    exact h4 s hsx
  · intro s hsx
    rw [lookupKey_upsert_ne cfg _ (by decide)] at hsx
    exact h5 s hsx

theorem BindingsOk_upsert_color {df : DataFrame} {cfg : Config} {s0 : String}
    (hs : s0 ∈ colNames df) (h : BindingsOk df cfg) :
    BindingsOk df (upsert cfg "color" (CVal.s s0)) := by
  obtain ⟨h1, h2, h3, h4, h5⟩ := h
  refine ⟨?_, ?_, ?_, ?_, ?_⟩
  · intro s hsx
    rw [lookupKey_upsert_ne cfg _ (by decide)] at hsx
    exact h1 s hsx
  · intro s hsx
    rw [lookupKey_upsert_ne cfg _ (by decide)] at hsx
    exact h2 s hsx
  · intro s hsx
    rw [lookupKey_upsert_self] at hsx
    cases hsx
    exact hs
  · intro s hsx
    rw [lookupKey_upsert_ne cfg _ (by decide)] at hsx
    exact h4 s hsx
  · intro s hsx
    rw [lookupKey_upsert_ne cfg _ (by decide)] at hsx
    exact h5 s hsx

theorem BindingsOk_upsert_names {df : DataFrame} {cfg : Config} {s0 : String}
    (hs : s0 ∈ colNames df) (h : BindingsOk df cfg) :
    BindingsOk df (upsert cfg "names" (CVal.s s0)) := by
  obtain ⟨h1, h2, h3, h4, h5⟩ := h
  refine ⟨?_, ?_, ?_, ?_, ?_⟩
  · intro s hsx
    rw [lookupKey_upsert_ne cfg _ (by decide)] at hsx
    exact h1 s hsx
  · intro s hsx
    rw [lookupKey_upsert_ne cfg _ (by decide)] at hsx
    exact h2 s hsx
  · intro s hsx
    rw [lookupKey_upsert_ne cfg _ (by decide)] at hsx
    exact h3 s hsx
  · intro s hsx
    rw [lookupKey_upsert_self] at hsx
    cases hsx
    exact hs
  · intro s hsx
    rw [lookupKey_upsert_ne cfg _ (by decide)] at hsx
    exact h5 s hsx

theorem BindingsOk_upsert_values {df : DataFrame} {cfg : Config} {s0 : String}
    (hs : s0 ∈ colNames df) (h : BindingsOk df cfg) :
    BindingsOk df (upsert cfg "values" (CVal.s s0)) := by
  obtain ⟨h1, h2, h3, h4, h5⟩ := h
  refine ⟨?_, ?_, ?_, ?_, ?_⟩
  · intro s hsx
    rw [lookupKey_upsert_ne cfg _ (by decide)] at hsx
    exact h1 s hsx
  · intro s hsx
    rw [lookupKey_upsert_ne cfg _ (by decide)] at hsx
    exact h2 s hsx
  · intro s hsx
    rw [lookupKey_upsert_ne cfg _ (by decide)] at hsx
    exact h3 s hsx
  · intro s hsx
    rw [lookupKey_upsert_ne cfg _ (by decide)] at hsx
    exact h4 s hsx
  · intro s hsx
    rw [lookupKey_upsert_self] at hsx
    cases hsx
    exact hs

theorem ne_nil_of_not_isEmpty {α : Type} {l : List α} (h : (!l.isEmpty) = true) : l ≠ [] := by
  cases l
  · simp at h
  · exact List.cons_ne_nil _ _

theorem getD_head_mem {α : Type} {l : List α} (h : l ≠ []) (d : α) : l.getD 0 d ∈ l := by
  cases l
  · exact absurd rfl h
  · rw [List.getD_cons_zero]
    exact List.mem_cons_self _ _

theorem bool_cond_false {b : Bool} (h : b = false) : ¬ (b = true) := by
  rw [h]
  exact Bool.false_ne_true

theorem upsert_cons {β : Type} (k1 : String) (v1 : β) (t : List (String × β)) (k : String)
    (v : β) :
    upsert ((k1, v1) :: t) k v =
      if k1 = k then (k, v) :: t else (k1, v1) :: upsert t k v := rfl

theorem matchStep_eq (query : String) (refs : List String) (kv : String × String) :
    matchStep query refs kv =
      if strContains query kv.1 && !(refs.contains kv.2) then refs ++ [kv.2] else refs := rfl

theorem upsert_mem {β : Type} {l : List (String × β)} {k : String} {v : β} {p : String × β}
    (h : p ∈ upsert l k v) : p ∈ l ∨ p = (k, v) := by
  induction l with
  | nil =>
    simp [upsert] at h
    exact Or.inr h
  | cons q t ih =>
    obtain ⟨k1, v1⟩ := q
    unfold upsert at h
    by_cases hk : k1 = k
    · rw [if_pos hk] at h
      rcases List.mem_cons.mp h with h1 | h1
      · exact Or.inr h1
      · exact Or.inl (List.mem_cons_of_mem _ h1)
    · rw [if_neg hk] at h
      rcases List.mem_cons.mp h with h1 | h1
      · exact Or.inl (by rw [h1]; exact List.mem_cons_self _ _)
      · rcases ih h1 with h2 | h2
        · exact Or.inl (List.mem_cons_of_mem _ h2)
        · exact Or.inr h2

theorem insertVariations_mem {acc : List (String × String)} {col : String} {p : String × String}
    (h : p ∈ insertVariations acc col) : p ∈ acc ∨ p.2 = col := by
  unfold insertVariations variationsOf at h
  simp only [List.foldl] at h
  rcases upsert_mem h with h1 | h1
  · rcases upsert_mem h1 with h2 | h2
    · rcases upsert_mem h2 with h3 | h3
      · exact Or.inl h3
      · exact Or.inr (by rw [h3])
    · exact Or.inr (by rw [h2])
  · exact Or.inr (by rw [h1])

theorem buildVariations_snd {columns : List String} {p : String × String}
    (h : p ∈ buildVariations columns) : p.2 ∈ columns := by
  suffices H : ∀ (cols : List String) (acc : List (String × String)),
      (∀ q ∈ acc, q.2 ∈ columns) → (∀ c ∈ cols, c ∈ columns) →
      ∀ q ∈ cols.foldl insertVariations acc, q.2 ∈ columns by
    exact H columns [] (by simp) (fun c hc => hc) p h
  intro cols
  induction cols with
  | nil =>
    intro acc ha _ q hq
    exact ha q hq
  | cons c t ih =>
    intro acc ha hc q hq
    rw [List.foldl_cons] at hq
    refine ih (insertVariations acc c) ?_ (fun d hd => hc d (List.mem_cons_of_mem _ hd)) q hq
    intro r hr
    rcases insertVariations_mem hr with h1 | h1
    · exact ha r h1
    · rw [h1]
      exact hc c (List.mem_cons_self _ _)

theorem foldl_matchStep_mem (query : String) :
    ∀ (l : List (String × String)) (refs : List String) (a : String),
      a ∈ l.foldl (matchStep query) refs → a ∈ refs ∨ ∃ p ∈ l, p.2 = a := by
  intro l
  induction l with
  | nil =>
    intro refs a ha
    exact Or.inl ha
  | cons p t ih =>
    intro refs a ha
    rw [List.foldl_cons] at ha
    rcases ih _ a ha with h | h
    · unfold matchStep at h
      split at h
      · rcases List.mem_append.mp h with h2 | h2
        · exact Or.inl h2
        · exact Or.inr ⟨p, List.mem_cons_self _ _, (List.mem_singleton.mp h2).symm⟩
      · exact Or.inl h
    · obtain ⟨q, hq, hqa⟩ := h
      exact Or.inr ⟨q, List.mem_cons_of_mem _ hq, hqa⟩

theorem identify_referenced_columns_subset (query : String) (columns : List String) :
    identify_referenced_columns query columns ⊆ columns := by
  intro a ha
  unfold identify_referenced_columns at ha
  rcases foldl_matchStep_mem query (buildVariations columns) [] a ha with h | h
  · exact absurd h (List.not_mem_nil a)
  · obtain ⟨p, hp, hpa⟩ := h
    rw [← hpa]
    exact buildVariations_snd hp

theorem foldl_matchStep_nodup (query : String) :
    ∀ (l : List (String × String)) (refs : List String), refs.Nodup →
      (l.foldl (matchStep query) refs).Nodup := by
  intro l
  induction l with
  | nil =>
    intro refs h
    exact h
  | cons p t ih =>
    intro refs h
    rw [List.foldl_cons]
    apply ih
    unfold matchStep
    split
    · rename_i hcond
      rw [Bool.and_eq_true] at hcond
      have h2 : refs.contains p.2 = false := by
        cases hb : refs.contains p.2
        · rfl
        · rw [hb] at hcond
          simp at hcond
      have hnm : p.2 ∉ refs := fun hmem => by
        rw [contains_true_iff.mpr hmem] at h2
        cases h2
      exact List.Nodup.append h (List.nodup_singleton _)
        (fun x hx hx2 => hnm ((List.mem_singleton.mp hx2) ▸ hx))
    · exact h

theorem identify_referenced_columns_nodup (query : String) (columns : List String) :
    (identify_referenced_columns query columns).Nodup := by
  unfold identify_referenced_columns
  exact foldl_matchStep_nodup query (buildVariations columns) [] List.nodup_nil

theorem keysOf_cons {β : Type} (q : String × β) (t : List (String × β)) :
    keysOf (q :: t) = q.1 :: keysOf t := rfl

theorem keysOf_append {β : Type} (l m : List (String × β)) :
    keysOf (l ++ m) = keysOf l ++ keysOf m := by
  simp [keysOf]

theorem upsert_append_left {β : Type} {acc : List (String × β)} {k : String} (m : List (String × β))
    (v : β) (h : k ∉ keysOf acc) : upsert (acc ++ m) k v = acc ++ upsert m k v := by
  induction acc with
  | nil => rfl
  | cons q t ih =>
    obtain ⟨k1, v1⟩ := q
    have hk : k1 ≠ k := by
      intro he
      refine h ?_
      rw [keysOf_cons, ← he]
      exact List.mem_cons_self _ _
    rw [List.cons_append, upsert_cons, if_neg hk,
      ih (fun hm => h (by rw [keysOf_cons]; exact List.mem_cons_of_mem _ hm)),
      List.cons_append]

theorem foldl_upsert_append {β : Type} :
    ∀ (kvs : List (String × β)) (acc m : List (String × β)),
      (∀ q ∈ kvs, q.1 ∉ keysOf acc) →
      kvs.foldl (fun a kv => upsert a kv.1 kv.2) (acc ++ m) =
        acc ++ kvs.foldl (fun a kv => upsert a kv.1 kv.2) m := by
  intro kvs
  induction kvs with
  | nil =>
    intro acc m _
    rfl
  | cons kv t ih =>
    intro acc m h
    rw [List.foldl_cons, List.foldl_cons]
    rw [upsert_append_left m kv.2 (h kv (List.mem_cons_self _ _))]
    exact ih acc (upsert m kv.1 kv.2) (fun q hq => h q (List.mem_cons_of_mem _ hq))

theorem insertVariations_eq_append {acc : List (String × String)} {col : String}
    (h : ∀ k ∈ variationKeys col, k ∉ keysOf acc) :
    insertVariations acc col = acc ++ blockOf col := by
  unfold insertVariations blockOf insertVariations
  have := foldl_upsert_append (variationsOf col) acc []
  rw [List.append_nil] at this
  exact this (fun q hq => h q.1 (List.mem_map_of_mem Prod.fst hq))

theorem keysOf_upsert_mem {β : Type} {l : List (String × β)} {k a : String} {v : β}
    (h : a ∈ keysOf (upsert l k v)) : a ∈ keysOf l ∨ a = k := by
  unfold keysOf at h ⊢
  rcases List.mem_map.mp h with ⟨p, hp, hpa⟩
  rcases upsert_mem hp with h1 | h1
  · exact Or.inl (hpa ▸ List.mem_map_of_mem _ h1)
  · right
    rw [← hpa, h1]

theorem keysOf_foldl_upsert_mem {β : Type} :
    ∀ (kvs : List (String × β)) (acc : List (String × β)) (a : String),
      a ∈ keysOf (kvs.foldl (fun x kv => upsert x kv.1 kv.2) acc) →
      a ∈ keysOf acc ∨ a ∈ keysOf kvs := by
  intro kvs
  induction kvs with
  | nil =>
    intro acc a h
    exact Or.inl h
  | cons kv t ih =>
    intro acc a h
    rw [List.foldl_cons] at h
    rcases ih _ a h with h1 | h1
    · rcases keysOf_upsert_mem h1 with h2 | h2
      · exact Or.inl h2
      · right
        rw [keysOf_cons, h2]
        exact List.mem_cons_self _ _
    · right
      rw [keysOf_cons]
      exact List.mem_cons_of_mem _ h1

theorem keysOf_blockOf_mem {col a : String} (h : a ∈ keysOf (blockOf col)) :
    a ∈ variationKeys col := by
  unfold blockOf insertVariations at h
  rcases keysOf_foldl_upsert_mem (variationsOf col) [] a h with h1 | h1
  · exact absurd h1 (List.not_mem_nil a)
  · exact h1

theorem buildVariations_eq_blocks :
    ∀ (cols : List String) (acc : List (String × String)),
      (∀ col ∈ cols, ∀ k ∈ variationKeys col, k ∉ keysOf acc) →
      List.Pairwise (fun a b => ∀ k ∈ variationKeys a, k ∉ variationKeys b) cols →
      cols.foldl insertVariations acc = acc ++ (cols.map blockOf).flatten := by
  intro cols
  induction cols with
  | nil =>
    intro acc _ _
    simp
  | cons c t ih =>
    intro acc hdisj hpair
    obtain ⟨hhead, htail⟩ := List.pairwise_cons.mp hpair
    rw [List.foldl_cons, insertVariations_eq_append (hdisj c (List.mem_cons_self _ _))]
    rw [ih (acc ++ blockOf c) ?_ htail]
    · rw [List.map_cons, List.flatten_cons, List.append_assoc]
    · intro col hcol k hk hmem
      rw [keysOf_append] at hmem
      rcases List.mem_append.mp hmem with hm | hm
      · exact hdisj col (List.mem_cons_of_mem _ hcol) k hk hm
      · exact hhead col hcol k (keysOf_blockOf_mem hm) hk

theorem blockOf_snd {col : String} {p : String × String} (h : p ∈ blockOf col) : p.2 = col := by
  unfold blockOf at h
  rcases insertVariations_mem h with h1 | h1
  · exact absurd h1 (List.not_mem_nil p)
  · exact h1

theorem foldl_matchStep_block (query col : String) :
    ∀ (block : List (String × String)) (refs : List String),
      (∀ p ∈ block, p.2 = col) →
      block.foldl (matchStep query) refs =
        refs ++ (if (block.any fun p => strContains query p.1) && !refs.contains col
          then [col] else []) := by
  intro block
  induction block with
  | nil =>
    intro refs _
    simp
  | cons p t ih =>
    intro refs hv
    have hp2 : p.2 = col := hv p (List.mem_cons_self _ _)
    have htv : ∀ q ∈ t, q.2 = col := fun q hq => hv q (List.mem_cons_of_mem _ hq)
    rw [List.foldl_cons, matchStep_eq, hp2, List.any_cons]
    cases hc : strContains query p.1 with
    | false =>
      simp only [Bool.false_and, Bool.false_or, Bool.false_eq_true, eq_self_iff_true, ite_true, ite_false]
      exact ih refs htv
    | true =>
      simp only [Bool.true_and, Bool.true_or]
      cases hm : refs.contains col with
      | true =>
        simp only [Bool.not_true, Bool.and_false, Bool.false_eq_true, eq_self_iff_true, ite_true, ite_false, List.append_nil]
        rw [ih refs htv, hm]
        simp only [Bool.not_true, Bool.and_false, Bool.false_eq_true, eq_self_iff_true, ite_true, ite_false, List.append_nil]
      | false =>
        have hcm : (refs ++ [col]).contains col = true :=
          contains_true_iff.mpr (List.mem_append_right _ (by simp))
        simp only [Bool.not_false, Bool.and_true, Bool.false_eq_true, eq_self_iff_true, ite_true, ite_false]
        rw [ih (refs ++ [col]) htv, hcm]
        simp only [Bool.not_true, Bool.and_false, Bool.false_eq_true, eq_self_iff_true, ite_true, ite_false, List.append_nil]

theorem matchBlocks_filter (query : String) :
    ∀ (cols : List String) (refs : List String),
      (∀ c ∈ cols, c ∉ refs) → cols.Nodup →
      ((cols.map blockOf).flatten).foldl (matchStep query) refs =
        refs ++ cols.filter (fun c => (blockOf c).any (fun p => strContains query p.1)) := by
  intro cols
  induction cols with
  | nil =>
    intro refs _ _
    simp
  | cons c t ih =>
    intro refs hnin hnd
    obtain ⟨hhead, htail⟩ := List.pairwise_cons.mp hnd
    rw [List.map_cons, List.flatten_cons, List.foldl_append,
      foldl_matchStep_block query c (blockOf c) refs (fun p hp => blockOf_snd hp),
      List.filter_cons]
    have hcr : refs.contains c = false := by
      cases hcc : refs.contains c
      · rfl
      · exact absurd (contains_true_iff.mp hcc) (hnin c (List.mem_cons_self _ _))
    rw [hcr]
    cases hb : ((blockOf c).any fun p => strContains query p.1) with
    | false =>
      simp only [Bool.false_and, Bool.false_eq_true, eq_self_iff_true, ite_true, ite_false, List.append_nil]
      exact ih refs (fun d hd => hnin d (List.mem_cons_of_mem _ hd)) htail
    | true =>
      have hnin2 : ∀ d ∈ t, d ∉ refs ++ [c] := by
        intro d hd hmem
        rcases List.mem_append.mp hmem with hm | hm
        · exact hnin d (List.mem_cons_of_mem _ hd) hm
        · exact hhead d hd (List.mem_singleton.mp hm).symm
      simp only [Bool.not_false, Bool.true_and, Bool.false_eq_true, eq_self_iff_true, ite_true, ite_false]
      rw [ih (refs ++ [c]) hnin2 htail, List.append_assoc, List.singleton_append]

theorem variationKeys_exists (col : String) : ∃ k, k ∈ variationKeys col := by
  simp only [variationKeys, variationsOf, List.map_cons]
  exact ⟨_, List.mem_cons_self _ _⟩

/-- C6 amended: the matcher returns each column at most once, and when no two
distinct columns generate a common variation string (no normalization or
plural collisions), the returned columns preserve the input column order (the
result is an order-preserving sublist of the column list). Under collisions
the order can break, as the counterexample shows. -/
theorem C6_amended (query : String) (columns : List String)
    (hdis : DisjointVariations columns) :
    (identify_referenced_columns query columns).Nodup ∧
    (identify_referenced_columns query columns).Sublist columns := by
  have hnd : columns.Nodup := by
    refine hdis.imp ?_
    intro a b hab he
    obtain ⟨k, hk⟩ := variationKeys_exists a
    exact hab k hk (he ▸ hk)
  have hbv : buildVariations columns = (columns.map blockOf).flatten := by
    unfold buildVariations
    have := buildVariations_eq_blocks columns []
      (fun col _ k _ hk => absurd hk (List.not_mem_nil k)) hdis
    rw [List.nil_append] at this
    exact this
  have heq : identify_referenced_columns query columns =
      columns.filter (fun c => (blockOf c).any (fun p => strContains query p.1)) := by
    unfold identify_referenced_columns
    rw [hbv]
    have := matchBlocks_filter query columns [] (fun c _ => List.not_mem_nil c) hnd
    rw [List.nil_append] at this
    exact this
  refine ⟨identify_referenced_columns_nodup query columns, ?_⟩
  rw [heq]
  exact List.filter_sublist _

/-- C6 witness: the amended theorem applied to collision-free concrete columns. -/
theorem C6_witness :
    DisjointVariations ["region", "sales"] ∧
    (identify_referenced_columns "sales by region" ["region", "sales"]).Nodup ∧
    (identify_referenced_columns "sales by region" ["region", "sales"]).Sublist
      ["region", "sales"] := by
  have hd : DisjointVariations ["region", "sales"] := by
    unfold DisjointVariations
    refine List.pairwise_cons.mpr ⟨?_, List.pairwise_cons.mpr ⟨?_, List.Pairwise.nil⟩⟩
    · intro b hb
      have hbs : b = "sales" := List.mem_singleton.mp hb
      subst hbs
      decide
    · intro b hb
      exact absurd hb (List.not_mem_nil b)
  exact ⟨hd, (C6_amended "sales by region" ["region", "sales"] hd).1,
    (C6_amended "sales by region" ["region", "sales"] hd).2⟩

theorem configure_bar_chart_ok {cfg cfg2 : Config} {df : DataFrame}
    {refs num cat temp : List String} {agg : String}
    (hrefs : refs ⊆ colNames df) (hnum : num ⊆ colNames df)
    (hcat : cat ⊆ colNames df) (htemp : temp ⊆ colNames df)
    (hok : BindingsOk df cfg)
    (h : configure_bar_chart cfg df refs num cat temp agg = Except.ok cfg2) :
    BindingsOk df cfg2 ∧
      (lookupKey cfg2 "chart_type" = lookupKey cfg "chart_type" ∨
       lookupKey cfg2 "chart_type" = some (CVal.s "bar_chart")) := by
  have hrefc : refs.filter (fun c => cat.contains c) ⊆ colNames df :=
    fun a ha => hrefs ((List.filter_sublist _).subset ha)
  have hrefn : refs.filter (fun c => num.contains c) ⊆ colNames df :=
    fun a ha => hrefs ((List.filter_sublist _).subset ha)
  have hreft : refs.filter (fun c => temp.contains c) ⊆ colNames df :=
    fun a ha => hrefs ((List.filter_sublist _).subset ha)
  simp only [configure_bar_chart] at h
  split at h
  · exact absurd h (fun hh => Except.noConfusion hh)
  · rename_i x y heq
    injection h with h
    subst h
    have hxy : (x ∈ colNames df ∨ x = indexDisplay df) ∧ y ∈ colNames df := by
      split at heq
      · split at heq
        · rename_i hc
          rw [Bool.and_eq_true] at hc
          obtain ⟨hc1, hc2⟩ := hc
          simp only [Except.ok.injEq, Prod.mk.injEq] at heq
          obtain ⟨hx1, hy1⟩ := heq
          subst hx1
          subst hy1
          exact ⟨Or.inl (hrefc (getD_head_mem (ne_nil_of_not_isEmpty hc1) "")),
            hrefn (getD_head_mem (ne_nil_of_not_isEmpty hc2) "")⟩
        · split at heq
          · rename_i hc
            rw [Bool.and_eq_true] at hc
            obtain ⟨hc1, hc2⟩ := hc
            simp only [Except.ok.injEq, Prod.mk.injEq] at heq
            obtain ⟨hx1, hy1⟩ := heq
            subst hx1
            subst hy1
            exact ⟨Or.inl (hreft (getD_head_mem (ne_nil_of_not_isEmpty hc1) "")),
              hrefn (getD_head_mem (ne_nil_of_not_isEmpty hc2) "")⟩
          · rename_i hlen _ _
            simp only [Except.ok.injEq, Prod.mk.injEq] at heq
            obtain ⟨hx1, hy1⟩ := heq
            subst hx1
            subst hy1
            exact ⟨Or.inl (hrefs (getD_mem_of_lt (by omega) "")),
              hrefs (getD_mem_of_lt (by omega) "")⟩
      · split at heq
        · rename_i hc
          rw [Bool.and_eq_true] at hc
          obtain ⟨hc1, hc2⟩ := hc
          simp only [Except.ok.injEq, Prod.mk.injEq] at heq
          obtain ⟨hx1, hy1⟩ := heq
          subst hx1
          subst hy1
          exact ⟨Or.inl (hcat (getD_head_mem (ne_nil_of_not_isEmpty hc1) "")),
            hnum (getD_head_mem (ne_nil_of_not_isEmpty hc2) "")⟩
        · split at heq
          · rename_i hc
            rw [Bool.and_eq_true] at hc
            obtain ⟨hc1, hc2⟩ := hc
            simp only [Except.ok.injEq, Prod.mk.injEq] at heq
            obtain ⟨hx1, hy1⟩ := heq
            subst hx1
            subst hy1
            exact ⟨Or.inl (htemp (getD_head_mem (ne_nil_of_not_isEmpty hc1) "")),
              hnum (getD_head_mem (ne_nil_of_not_isEmpty hc2) "")⟩
          · split at heq
            · rename_i hlen
              simp only [Except.ok.injEq, Prod.mk.injEq] at heq
              obtain ⟨hx1, hy1⟩ := heq
              subst hx1
              subst hy1
              exact ⟨Or.inl (hnum (getD_mem_of_lt (by omega) "")),
                hnum (getD_mem_of_lt (by omega) "")⟩
            · split at heq
              · rename_i hne
                simp only [Except.ok.injEq, Prod.mk.injEq] at heq
                obtain ⟨hx1, hy1⟩ := heq
                subst hx1
                subst hy1
                exact ⟨Or.inr rfl,
                  hnum (getD_head_mem (ne_nil_of_not_isEmpty hne) "")⟩
              · obtain ⟨ha, hb⟩ := firstTwoFallback_mem heq
                exact ⟨Or.inl ha, hb⟩
    obtain ⟨hx, hy⟩ := hxy
    have hx3 : x ∈ colNames df ∨ x = indexDisplay df ∨ x = "None" :=
      hx.elim Or.inl (fun hh => Or.inr (Or.inl hh))
    constructor
    · refine BindingsOk_upsert_other (by decide) (by decide) (by decide) (by decide)
        (by decide) ?_
      split
      · rename_i hcond
        rw [Bool.and_eq_true] at hcond
        obtain ⟨hc1, _⟩ := hcond
        have hlen : cat.length > 1 := of_decide_eq_true hc1
        exact BindingsOk_upsert_color (hcat (getD_mem_of_lt (by omega) ""))
          (BindingsOk_upsert_y hy (BindingsOk_upsert_x hx3 hok))
      · exact BindingsOk_upsert_y hy (BindingsOk_upsert_x hx3 hok)
    · left
      rw [lookupKey_upsert_ne _ _ (by decide)]
      split
      · rw [lookupKey_upsert_ne _ _ (by decide), lookupKey_upsert_ne _ _ (by decide),
          lookupKey_upsert_ne _ _ (by decide)]
      · rw [lookupKey_upsert_ne _ _ (by decide), lookupKey_upsert_ne _ _ (by decide)]

theorem configure_line_chart_ok {cfg cfg2 : Config} {df : DataFrame}
    {refs num cat temp : List String} {agg : String}
    (hrefs : refs ⊆ colNames df) (hnum : num ⊆ colNames df)
    (hcat : cat ⊆ colNames df) (htemp : temp ⊆ colNames df)
    (hok : BindingsOk df cfg)
    (h : configure_line_chart cfg df refs num cat temp agg = Except.ok cfg2) :
    BindingsOk df cfg2 ∧
      (lookupKey cfg2 "chart_type" = lookupKey cfg "chart_type" ∨
       lookupKey cfg2 "chart_type" = some (CVal.s "bar_chart")) := by
  have hrefc : refs.filter (fun c => cat.contains c) ⊆ colNames df :=
    fun a ha => hrefs ((List.filter_sublist _).subset ha)
  have hrefn : refs.filter (fun c => num.contains c) ⊆ colNames df :=
    fun a ha => hrefs ((List.filter_sublist _).subset ha)
  simp only [configure_line_chart] at h
  split at h
  · exact absurd h (fun hh => Except.noConfusion hh)
  · rename_i x y heq
    injection h with h
    subst h
    have hxy : (x ∈ colNames df ∨ x = indexDisplay df) ∧ y ∈ colNames df := by
      split at heq
      · rename_i htne
        have hxm : temp.getD 0 "" ∈ colNames df :=
          htemp (getD_head_mem (ne_nil_of_not_isEmpty htne) "")
        split at heq
        · rename_i hc
          simp only [Except.ok.injEq, Prod.mk.injEq] at heq
          obtain ⟨hx1, hy1⟩ := heq
          subst hx1
          subst hy1
          exact ⟨Or.inl hxm, hrefn (getD_head_mem (ne_nil_of_not_isEmpty hc) "")⟩
        · split at heq
          · rename_i hc
            simp only [Except.ok.injEq, Prod.mk.injEq] at heq
            obtain ⟨hx1, hy1⟩ := heq
            subst hx1
            subst hy1
            exact ⟨Or.inl hxm, hnum (getD_head_mem (ne_nil_of_not_isEmpty hc) "")⟩
          · split at heq
            · rename_i hc
              simp only [Except.ok.injEq, Prod.mk.injEq] at heq
              obtain ⟨hx1, hy1⟩ := heq
              subst hx1
              subst hy1
              exact ⟨Or.inl hxm, hrefs (getD_head_mem (ne_nil_of_not_isEmpty hc) "")⟩
            · split at heq
              · exact absurd heq (fun hh => Except.noConfusion hh)
              · rename_i c0 hc0
                simp only [Except.ok.injEq, Prod.mk.injEq] at heq
                obtain ⟨hx1, hy1⟩ := heq
                subst hx1
                subst hy1
                exact ⟨Or.inl hxm, colAt_ok_mem hc0⟩
      · split at heq
        · rename_i hlen2
          split at heq
          · rename_i hnr2
            simp only [Except.ok.injEq, Prod.mk.injEq] at heq
            obtain ⟨hx1, hy1⟩ := heq
            subst hx1
            subst hy1
            exact ⟨Or.inl (hrefn (getD_mem_of_lt (by omega) "")),
              hrefn (getD_mem_of_lt (by omega) "")⟩
          · simp only [Except.ok.injEq, Prod.mk.injEq] at heq
            obtain ⟨hx1, hy1⟩ := heq
            subst hx1
            subst hy1
            exact ⟨Or.inl (hnum (getD_mem_of_lt (by omega) "")),
              hnum (getD_mem_of_lt (by omega) "")⟩
        · split at heq
          · rename_i hne
            simp only [Except.ok.injEq, Prod.mk.injEq] at heq
            obtain ⟨hx1, hy1⟩ := heq
            subst hx1
            subst hy1
            exact ⟨Or.inr rfl, hnum (getD_head_mem (ne_nil_of_not_isEmpty hne) "")⟩
          · obtain ⟨ha, hb⟩ := firstTwoFallback_mem heq
            exact ⟨Or.inl ha, hb⟩
    obtain ⟨hx, hy⟩ := hxy
    have hx3 : x ∈ colNames df ∨ x = indexDisplay df ∨ x = "None" :=
      hx.elim Or.inl (fun hh => Or.inr (Or.inl hh))
    constructor
    · refine BindingsOk_upsert_other (by decide) (by decide) (by decide) (by decide)
        (by decide) ?_
      split
      · rename_i hcne
        split
        · rename_i hcrne
          exact BindingsOk_upsert_color
            (hrefc (getD_head_mem (ne_nil_of_not_isEmpty hcrne) ""))
            (BindingsOk_upsert_y hy (BindingsOk_upsert_x hx3 hok))
        · exact BindingsOk_upsert_color
            (hcat (getD_head_mem (ne_nil_of_not_isEmpty hcne) ""))
            (BindingsOk_upsert_y hy (BindingsOk_upsert_x hx3 hok))
      · exact BindingsOk_upsert_y hy (BindingsOk_upsert_x hx3 hok)
    · left
      rw [lookupKey_upsert_ne _ _ (by decide)]
      split
      · split
        · rw [lookupKey_upsert_ne _ _ (by decide), lookupKey_upsert_ne _ _ (by decide),
            lookupKey_upsert_ne _ _ (by decide)]
        · rw [lookupKey_upsert_ne _ _ (by decide), lookupKey_upsert_ne _ _ (by decide),
            lookupKey_upsert_ne _ _ (by decide)]
      · rw [lookupKey_upsert_ne _ _ (by decide), lookupKey_upsert_ne _ _ (by decide)]

theorem configure_scatter_plot_ok {cfg cfg2 : Config} {df : DataFrame}
    {refs num : List String}
    (hrefs : refs ⊆ colNames df) (hnum : num ⊆ colNames df)
    (hok : BindingsOk df cfg)
    (h : configure_scatter_plot cfg df refs num = Except.ok cfg2) :
    BindingsOk df cfg2 ∧
      (lookupKey cfg2 "chart_type" = lookupKey cfg "chart_type" ∨
       lookupKey cfg2 "chart_type" = some (CVal.s "bar_chart")) := by
  have hrefn : refs.filter (fun c => num.contains c) ⊆ colNames df :=
    fun a ha => hrefs ((List.filter_sublist _).subset ha)
  have hBxy : ∀ a b : String, a ∈ colNames df → b ∈ colNames df →
      BindingsOk df (upsert (upsert cfg "x" (CVal.s a)) "y" (CVal.s b)) :=
    fun a b ha hb => BindingsOk_upsert_y hb (BindingsOk_upsert_x (Or.inl ha) hok)
  simp only [configure_scatter_plot] at h
  split at h
  · rename_i hn2
    injection h with h
    subst h
    by_cases hnr : (refs.filter (fun c => num.contains c)).length ≥ 2
    · rw [if_pos hnr]
      constructor
      · split
        · rename_i hcnd
          rw [Bool.and_eq_true] at hcnd
          have h2 : (refs.filter (fun c => num.contains c)).length > 2 :=
            of_decide_eq_true hcnd.2
          exact BindingsOk_upsert_color (hrefn (getD_mem_of_lt (by omega) ""))
            (hBxy _ _ (hrefn (getD_mem_of_lt (by omega) ""))
              (hrefn (getD_mem_of_lt (by omega) "")))
        · split
          · rename_i hcnd2
            have h1 : num.length > 2 := hcnd2
            exact BindingsOk_upsert_color (hnum (getD_mem_of_lt (by omega) ""))
              (hBxy _ _ (hrefn (getD_mem_of_lt (by omega) ""))
                (hrefn (getD_mem_of_lt (by omega) "")))
          · exact hBxy _ _ (hrefn (getD_mem_of_lt (by omega) ""))
              (hrefn (getD_mem_of_lt (by omega) ""))
      · left
        split
        · rw [lookupKey_upsert_ne _ _ (by decide), lookupKey_upsert_ne _ _ (by decide),
            lookupKey_upsert_ne _ _ (by decide)]
        · split
          · rw [lookupKey_upsert_ne _ _ (by decide), lookupKey_upsert_ne _ _ (by decide),
              lookupKey_upsert_ne _ _ (by decide)]
          · rw [lookupKey_upsert_ne _ _ (by decide), lookupKey_upsert_ne _ _ (by decide)]
    · rw [if_neg hnr]
      constructor
      · split
        · rename_i hcnd
          rw [Bool.and_eq_true] at hcnd
          have h2 : (refs.filter (fun c => num.contains c)).length > 2 :=
            of_decide_eq_true hcnd.2
          exact BindingsOk_upsert_color (hrefn (getD_mem_of_lt (by omega) ""))
            (hBxy _ _ (hnum (getD_mem_of_lt (by omega) ""))
              (hnum (getD_mem_of_lt (by omega) "")))
        · split
          · rename_i hcnd2
            have h1 : num.length > 2 := hcnd2
            exact BindingsOk_upsert_color (hnum (getD_mem_of_lt (by omega) ""))
              (hBxy _ _ (hnum (getD_mem_of_lt (by omega) ""))
                (hnum (getD_mem_of_lt (by omega) "")))
          · exact hBxy _ _ (hnum (getD_mem_of_lt (by omega) ""))
              (hnum (getD_mem_of_lt (by omega) ""))
      · left
        split
        · rw [lookupKey_upsert_ne _ _ (by decide), lookupKey_upsert_ne _ _ (by decide),
            lookupKey_upsert_ne _ _ (by decide)]
        · split
          · rw [lookupKey_upsert_ne _ _ (by decide), lookupKey_upsert_ne _ _ (by decide),
              lookupKey_upsert_ne _ _ (by decide)]
          · rw [lookupKey_upsert_ne _ _ (by decide), lookupKey_upsert_ne _ _ (by decide)]
  · split at h
    · exact absurd h (fun hh => Except.noConfusion hh)
    · rename_i c0 c1 hf
      injection h with h
      subst h
      obtain ⟨hc0, hc1⟩ := firstTwoFallback_mem hf
      constructor
      · refine BindingsOk_upsert_y ?_ (BindingsOk_upsert_x (Or.inl hc0)
          (BindingsOk_upsert_other (by decide) (by decide) (by decide) (by decide)
            (by decide) hok))
        split
        · rename_i hne
          exact hnum (getD_head_mem (ne_nil_of_not_isEmpty hne) "")
        · exact hc1
      · right
        rw [lookupKey_upsert_ne _ _ (by decide), lookupKey_upsert_ne _ _ (by decide),
          lookupKey_upsert_self]

theorem configure_pie_chart_ok {cfg cfg2 : Config} {df : DataFrame}
    {refs num cat : List String} {agg : String}
    (hrefs : refs ⊆ colNames df) (hnum : num ⊆ colNames df) (hcat : cat ⊆ colNames df)
    (hok : BindingsOk df cfg)
    (h : configure_pie_chart cfg df refs num cat agg = Except.ok cfg2) :
    BindingsOk df cfg2 ∧
      (lookupKey cfg2 "chart_type" = lookupKey cfg "chart_type" ∨
       lookupKey cfg2 "chart_type" = some (CVal.s "bar_chart")) := by
  have hrefc : refs.filter (fun c => cat.contains c) ⊆ colNames df :=
    fun a ha => hrefs ((List.filter_sublist _).subset ha)
  have hrefn : refs.filter (fun c => num.contains c) ⊆ colNames df :=
    fun a ha => hrefs ((List.filter_sublist _).subset ha)
  simp only [configure_pie_chart] at h
  split at h
  · rename_i hcn
    rw [Bool.and_eq_true] at hcn
    injection h with h
    subst h
    have hB : ∀ a b : String, a ∈ colNames df → b ∈ colNames df →
        BindingsOk df (upsert (upsert (upsert cfg "names" (CVal.s a)) "values" (CVal.s b))
          "hole" (CVal.n 0)) :=
      fun a b ha hb => BindingsOk_upsert_other (by decide) (by decide) (by decide) (by decide)
        (by decide) (BindingsOk_upsert_values hb (BindingsOk_upsert_names ha hok))
    constructor
    · by_cases hcr : (!(refs.filter (fun c => cat.contains c)).isEmpty &&
          !(refs.filter (fun c => num.contains c)).isEmpty) = true
      · rw [if_pos hcr]
        rw [Bool.and_eq_true] at hcr
        exact hB _ _ (hrefc (getD_head_mem (ne_nil_of_not_isEmpty hcr.1) ""))
          (hrefn (getD_head_mem (ne_nil_of_not_isEmpty hcr.2) ""))
      · rw [if_neg hcr]
        exact hB _ _ (hcat (getD_head_mem (ne_nil_of_not_isEmpty hcn.1) ""))
          (hnum (getD_head_mem (ne_nil_of_not_isEmpty hcn.2) ""))
    · left
      split
      · rw [lookupKey_upsert_ne _ _ (by decide), lookupKey_upsert_ne _ _ (by decide),
          lookupKey_upsert_ne _ _ (by decide)]
      · rw [lookupKey_upsert_ne _ _ (by decide), lookupKey_upsert_ne _ _ (by decide),
          lookupKey_upsert_ne _ _ (by decide)]
  · split at h
    · exact absurd h (fun hh => Except.noConfusion hh)
    · rename_i c0 c1 hf
      injection h with h
      subst h
      obtain ⟨hc0, hc1⟩ := firstTwoFallback_mem hf
      constructor
      · refine BindingsOk_upsert_y ?_ (BindingsOk_upsert_x (Or.inl hc0)
          (BindingsOk_upsert_other (by decide) (by decide) (by decide) (by decide)
            (by decide) hok))
        split
        · rename_i hne
          exact hnum (getD_head_mem (ne_nil_of_not_isEmpty hne) "")
        · exact hc1
      · right
        rw [lookupKey_upsert_ne _ _ (by decide), lookupKey_upsert_ne _ _ (by decide),
          lookupKey_upsert_self]

theorem configure_histogram_ok {cfg cfg2 : Config} {df : DataFrame}
    {refs num : List String}
    (hrefs : refs ⊆ colNames df) (hnum : num ⊆ colNames df)
    (hok : BindingsOk df cfg)
    (h : configure_histogram cfg df refs num = Except.ok cfg2) :
    BindingsOk df cfg2 ∧
      (lookupKey cfg2 "chart_type" = lookupKey cfg "chart_type" ∨
       lookupKey cfg2 "chart_type" = some (CVal.s "bar_chart")) := by
  have hrefn : refs.filter (fun c => num.contains c) ⊆ colNames df :=
    fun a ha => hrefs ((List.filter_sublist _).subset ha)
  simp only [configure_histogram] at h
  split at h
  · rename_i hnn
    injection h with h
    subst h
    constructor
    · refine BindingsOk_upsert_other (by decide) (by decide) (by decide) (by decide)
        (by decide) (BindingsOk_upsert_x ?_ hok)
      left
      split
      · rename_i hne
        exact hrefn (getD_head_mem (ne_nil_of_not_isEmpty hne) "")
      · exact hnum (getD_head_mem (ne_nil_of_not_isEmpty hnn) "")
    · left
      rw [lookupKey_upsert_ne _ _ (by decide), lookupKey_upsert_ne _ _ (by decide)]
  · split at h
    · exact absurd h (fun hh => Except.noConfusion hh)
    · rename_i c0 c1 hf
      injection h with h
      subst h
      obtain ⟨hc0, hc1⟩ := firstTwoFallback_mem hf
      constructor
      · exact BindingsOk_upsert_y hc1 (BindingsOk_upsert_x (Or.inl hc0)
          (BindingsOk_upsert_other (by decide) (by decide) (by decide) (by decide)
            (by decide) hok))
      · right
        rw [lookupKey_upsert_ne _ _ (by decide), lookupKey_upsert_ne _ _ (by decide),
          lookupKey_upsert_self]

theorem configure_box_plot_ok {cfg cfg2 : Config} {df : DataFrame}
    {refs num cat : List String}
    (hrefs : refs ⊆ colNames df) (hnum : num ⊆ colNames df) (hcat : cat ⊆ colNames df)
    (hok : BindingsOk df cfg)
    (h : configure_box_plot cfg df refs num cat = Except.ok cfg2) :
    BindingsOk df cfg2 ∧
      (lookupKey cfg2 "chart_type" = lookupKey cfg "chart_type" ∨
       lookupKey cfg2 "chart_type" = some (CVal.s "bar_chart")) := by
  have hrefc : refs.filter (fun c => cat.contains c) ⊆ colNames df :=
    fun a ha => hrefs ((List.filter_sublist _).subset ha)
  have hrefn : refs.filter (fun c => num.contains c) ⊆ colNames df :=
    fun a ha => hrefs ((List.filter_sublist _).subset ha)
  simp only [configure_box_plot] at h
  split at h
  · rename_i hnn
    injection h with h
    subst h
    constructor
    · refine BindingsOk_upsert_x ?_ (BindingsOk_upsert_y ?_ hok)
      · split
        · rename_i hne
          exact Or.inl (hrefc (getD_head_mem (ne_nil_of_not_isEmpty hne) ""))
        · split
          · rename_i hne
            exact Or.inl (hcat (getD_head_mem (ne_nil_of_not_isEmpty hne) ""))
          · exact Or.inr (Or.inr rfl)
      · split
        · rename_i hne
          exact hrefn (getD_head_mem (ne_nil_of_not_isEmpty hne) "")
        · exact hnum (getD_head_mem (ne_nil_of_not_isEmpty hnn) "")
    · left
      rw [lookupKey_upsert_ne _ _ (by decide), lookupKey_upsert_ne _ _ (by decide)]
  · split at h
    · exact absurd h (fun hh => Except.noConfusion hh)
    · rename_i c0 c1 hf
      injection h with h
      subst h
      obtain ⟨hc0, hc1⟩ := firstTwoFallback_mem hf
      constructor
      · exact BindingsOk_upsert_y hc1 (BindingsOk_upsert_x (Or.inl hc0)
          (BindingsOk_upsert_other (by decide) (by decide) (by decide) (by decide)
            (by decide) hok))
      · right
        rw [lookupKey_upsert_ne _ _ (by decide), lookupKey_upsert_ne _ _ (by decide),
          lookupKey_upsert_self]

theorem configure_heatmap_ok {cfg cfg2 : Config} {df : DataFrame}
    {refs num cat : List String}
    (hrefs : refs ⊆ colNames df) (hnum : num ⊆ colNames df) (hcat : cat ⊆ colNames df)
    (hok : BindingsOk df cfg)
    (h : configure_heatmap cfg df refs num cat = Except.ok cfg2) :
    BindingsOk df cfg2 ∧
      (lookupKey cfg2 "chart_type" = lookupKey cfg "chart_type" ∨
       lookupKey cfg2 "chart_type" = some (CVal.s "bar_chart")) := by
  have hrefc : refs.filter (fun c => cat.contains c) ⊆ colNames df :=
    fun a ha => hrefs ((List.filter_sublist _).subset ha)
  have hrefn : refs.filter (fun c => num.contains c) ⊆ colNames df :=
    fun a ha => hrefs ((List.filter_sublist _).subset ha)
  simp only [configure_heatmap] at h
  split at h
  · rename_i houter
    rw [Bool.and_eq_true] at houter
    have hcl : cat.length ≥ 2 := of_decide_eq_true houter.1
    have hnn : num ≠ [] := ne_nil_of_not_isEmpty houter.2
    injection h with h
    subst h
    have hB : ∀ a b c : String, a ∈ colNames df → b ∈ colNames df → c ∈ colNames df →
        BindingsOk df (upsert (upsert (upsert (upsert cfg "x" (CVal.s a)) "y" (CVal.s b))
          "values" (CVal.s c)) "color_scale" (CVal.s "Viridis")) :=
      fun a b c ha hb hc =>
        BindingsOk_upsert_other (by decide) (by decide) (by decide) (by decide) (by decide)
          (BindingsOk_upsert_values hc
            (BindingsOk_upsert_y hb (BindingsOk_upsert_x (Or.inl ha) hok)))
    constructor
    · by_cases hA : (decide ((refs.filter (fun c => cat.contains c)).length ≥ 2) &&
          !(refs.filter (fun c => num.contains c)).isEmpty) = true
      · rw [if_pos hA]
        rw [Bool.and_eq_true] at hA
        have hA1 : (refs.filter (fun c => cat.contains c)).length ≥ 2 :=
          of_decide_eq_true hA.1
        exact hB _ _ _ (hrefc (getD_mem_of_lt (by omega) ""))
          (hrefc (getD_mem_of_lt (by omega) ""))
          (hrefn (getD_head_mem (ne_nil_of_not_isEmpty hA.2) ""))
      · rw [if_neg hA]
        by_cases hBc : (refs.filter (fun c => cat.contains c)).length ≥ 2
        · rw [if_pos hBc]
          exact hB _ _ _ (hrefc (getD_mem_of_lt (by omega) ""))
            (hrefc (getD_mem_of_lt (by omega) ""))
            (hnum (getD_head_mem hnn ""))
        · rw [if_neg hBc]
          by_cases hC : (!(refs.filter (fun c => cat.contains c)).isEmpty &&
              !(refs.filter (fun c => num.contains c)).isEmpty) = true
          · rw [if_pos hC]
            rw [Bool.and_eq_true] at hC
            refine hB _ _ _ (hrefc (getD_head_mem (ne_nil_of_not_isEmpty hC.1) "")) ?_
              (hrefn (getD_head_mem (ne_nil_of_not_isEmpty hC.2) ""))
            split
            · exact hcat (getD_mem_of_lt (by omega) "")
            · exact hcat (getD_mem_of_lt (by omega) "")
          · rw [if_neg hC]
            exact hB _ _ _ (hcat (getD_mem_of_lt (by omega) ""))
              (hcat (getD_mem_of_lt (by omega) ""))
              (hnum (getD_head_mem hnn ""))
    · left
      rw [lookupKey_upsert_ne _ _ (by decide), lookupKey_upsert_ne _ _ (by decide),
        lookupKey_upsert_ne _ _ (by decide), lookupKey_upsert_ne _ _ (by decide)]
  · split at h
    · exact absurd h (fun hh => Except.noConfusion hh)
    · rename_i x0 hx0
      have hx0m : x0 ∈ colNames df := by
        split at hx0
        · rename_i hne
          injection hx0 with hx0
          rw [← hx0]
          exact hcat (getD_head_mem (ne_nil_of_not_isEmpty hne) "")
        · exact colAt_ok_mem hx0
      have hB2 : ∀ b : String, b ∈ colNames df →
          BindingsOk df (upsert (upsert (upsert cfg "chart_type" (CVal.s "bar_chart"))
            "x" (CVal.s x0)) "y" (CVal.s b)) ∧
          lookupKey (upsert (upsert (upsert cfg "chart_type" (CVal.s "bar_chart"))
            "x" (CVal.s x0)) "y" (CVal.s b)) "chart_type" = some (CVal.s "bar_chart") := by
        intro b hb
        constructor
        · exact BindingsOk_upsert_y hb (BindingsOk_upsert_x (Or.inl hx0m)
            (BindingsOk_upsert_other (by decide) (by decide) (by decide) (by decide)
              (by decide) hok))
        · rw [lookupKey_upsert_ne _ _ (by decide), lookupKey_upsert_ne _ _ (by decide),
            lookupKey_upsert_self]
      split at h
      · rename_i hne
        injection h with h
        subst h
        obtain ⟨h1, h2⟩ := hB2 _ (hnum (getD_head_mem (ne_nil_of_not_isEmpty hne) ""))
        exact ⟨h1, Or.inr h2⟩
      · split at h
        · split at h
          · exact absurd h (fun hh => Except.noConfusion hh)
          · rename_i c1 hc1
            injection h with h
            subst h
            obtain ⟨h1, h2⟩ := hB2 _ (colAt_ok_mem hc1)
            exact ⟨h1, Or.inr h2⟩
        · split at h
          · exact absurd h (fun hh => Except.noConfusion hh)
          · rename_i c0 hc0
            injection h with h
            subst h
            obtain ⟨h1, h2⟩ := hB2 _ (colAt_ok_mem hc0)
            exact ⟨h1, Or.inr h2⟩

theorem argmaxGo_mem : ∀ (l : List (String × Nat)) (best : String × Nat),
    argmaxGo best l ∈ best.1 :: l.map Prod.fst := by
  intro l
  induction l with
  | nil =>
    intro best
    exact List.mem_cons_self _ _
  | cons q t ih =>
    intro best
    simp only [argmaxGo]
    rw [List.map_cons]
    split
    · exact List.mem_cons_of_mem _ (ih q)
    · rcases List.mem_cons.mp (ih best) with h1 | h1
      · rw [h1]
        exact List.mem_cons_self _ _
      · exact List.mem_cons_of_mem _ (List.mem_cons_of_mem _ h1)

theorem identify_visualization_type_mem (query : String) :
    identify_visualization_type query ∈ supportedChartTypes := by
  unfold identify_visualization_type
  split
  · split
    · decide
    · decide
  · exact argmaxGo_mem _ _

theorem process_natural_language_query_ok {query : String} {df : DataFrame} {cfg : Config}
    (h : process_natural_language_query query df = Except.ok cfg) :
    BindingsOk df cfg ∧
      ∃ t, lookupKey cfg "chart_type" = some (CVal.s t) ∧ t ∈ supportedChartTypes := by
  simp only [process_natural_language_query] at h
  have hok : BindingsOk df [("chart_type",
      CVal.s (identify_visualization_type ⟨query.toList.map Char.toLower⟩)),
      ("title", CVal.s (capitalizeStr ⟨query.toList.map Char.toLower⟩))] := by
    refine ⟨?_, ?_, ?_, ?_, ?_⟩ <;> (intro s hs; simp [lookupKey] at hs)
  have hvm := identify_visualization_type_mem ⟨query.toList.map Char.toLower⟩
  have hct : lookupKey [("chart_type",
      CVal.s (identify_visualization_type ⟨query.toList.map Char.toLower⟩)),
      ("title", CVal.s (capitalizeStr ⟨query.toList.map Char.toLower⟩))] "chart_type" =
      some (CVal.s (identify_visualization_type ⟨query.toList.map Char.toLower⟩)) := by
    simp [lookupKey]
  have hrefs := identify_referenced_columns_subset ⟨query.toList.map Char.toLower⟩ (colNames df)
  have hnum := numericCols_subset df
  have hcat := categoricalCols_subset df
  have htemp := temporalCols_subset df
  split at h
  · obtain ⟨hb, hc⟩ := configure_bar_chart_ok hrefs hnum hcat htemp hok h
    refine ⟨hb, ?_⟩
    rcases hc with hc | hc
    · exact ⟨_, hc.trans hct, hvm⟩
    · exact ⟨"bar_chart", hc, by decide⟩
  · split at h
    · obtain ⟨hb, hc⟩ := configure_line_chart_ok hrefs hnum hcat htemp hok h
      refine ⟨hb, ?_⟩
      rcases hc with hc | hc
      · exact ⟨_, hc.trans hct, hvm⟩
      · exact ⟨"bar_chart", hc, by decide⟩
    · split at h
      · obtain ⟨hb, hc⟩ := configure_scatter_plot_ok hrefs hnum hok h
        refine ⟨hb, ?_⟩
        rcases hc with hc | hc
        · exact ⟨_, hc.trans hct, hvm⟩
        · exact ⟨"bar_chart", hc, by decide⟩
      · split at h
        · obtain ⟨hb, hc⟩ := configure_pie_chart_ok hrefs hnum hcat hok h
          refine ⟨hb, ?_⟩
          rcases hc with hc | hc
          · exact ⟨_, hc.trans hct, hvm⟩
          · exact ⟨"bar_chart", hc, by decide⟩
        · split at h
          · obtain ⟨hb, hc⟩ := configure_histogram_ok hrefs hnum hok h
            refine ⟨hb, ?_⟩
            rcases hc with hc | hc
            · exact ⟨_, hc.trans hct, hvm⟩
            · exact ⟨"bar_chart", hc, by decide⟩
          · split at h
            · obtain ⟨hb, hc⟩ := configure_box_plot_ok hrefs hnum hcat hok h
              refine ⟨hb, ?_⟩
              rcases hc with hc | hc
              · exact ⟨_, hc.trans hct, hvm⟩
              · exact ⟨"bar_chart", hc, by decide⟩
            · split at h
              · obtain ⟨hb, hc⟩ := configure_heatmap_ok hrefs hnum hcat hok h
                refine ⟨hb, ?_⟩
                rcases hc with hc | hc
                · exact ⟨_, hc.trans hct, hvm⟩
                · exact ⟨"bar_chart", hc, by decide⟩
              · injection h with h
                subst h
                exact ⟨hok, ⟨_, hct, hvm⟩⟩

/-- C1 amended: every column-name-valued entry of a returned chart
configuration (the y, color, names and values bindings) names a column that
exists in the dataset at construction time; the x binding names an existing
column except in two literal-sentinel cases: the box_plot "None" sentinel,
and the index display name (df.index.name or "index") produced by the
bar/line single-numeric-column fallback, which need not be a dataset column. -/
theorem C1_amended (query : String) (df : DataFrame) (cfg : Config)
    (h : process_natural_language_query query df = Except.ok cfg) :
    (∀ s, lookupKey cfg "x" = some (CVal.s s) →
      s ∈ colNames df ∨ s = indexDisplay df ∨ s = "None") ∧
    (∀ s, lookupKey cfg "y" = some (CVal.s s) → s ∈ colNames df) ∧
    (∀ s, lookupKey cfg "color" = some (CVal.s s) → s ∈ colNames df) ∧
    (∀ s, lookupKey cfg "names" = some (CVal.s s) → s ∈ colNames df) ∧
    (∀ s, lookupKey cfg "values" = some (CVal.s s) → s ∈ colNames df) :=
  (process_natural_language_query_ok h).1

/-- C1 witness: the amended theorem applied to a concrete run in which the
bar-chart configurator binds y; the binding indeed names a dataset column. -/
theorem C1_amended_witness : "n" ∈ colNames dfScatter :=
  (C1_amended "" dfScatter
      [("chart_type", CVal.s "bar_chart"), ("title", CVal.s ""),
       ("x", CVal.s "c1"), ("y", CVal.s "n"), ("orientation", CVal.s "Vertical")]
      (by decide)).2.1 "n" (by decide)

/-- C3: every configuration returned by process_natural_language_query
contains the key chart_type, and its value is one of the seven supported
tags. -/
theorem C3_chart_type (query : String) (df : DataFrame) (cfg : Config)
    (h : process_natural_language_query query df = Except.ok cfg) :
    ∃ t, lookupKey cfg "chart_type" = some (CVal.s t) ∧ t ∈ supportedChartTypes :=
  (process_natural_language_query_ok h).2

/-- C3 witness: the theorem applied to a concrete query and dataset. -/
theorem C3_witness :
    ∃ t, lookupKey [("chart_type", CVal.s "bar_chart"), ("title", CVal.s ""),
      ("x", CVal.s "name"), ("y", CVal.s "name"), ("orientation", CVal.s "Vertical")]
      "chart_type" = some (CVal.s t) ∧ t ∈ supportedChartTypes :=
  C3_chart_type "" dfOneText
    [("chart_type", CVal.s "bar_chart"), ("title", CVal.s ""),
     ("x", CVal.s "name"), ("y", CVal.s "name"), ("orientation", CVal.s "Vertical")]
    (by decide)

/-- C1 counterexample: on a dataset whose only column is numeric, a bar chart
resolution binds x to the literal index display name "index", which is not a
dataset column; the constructed configuration violates the stated invariant. -/
theorem C1_counterexample :
    process_natural_language_query "" dfValue =
      Except.ok [("chart_type", CVal.s "bar_chart"), ("title", CVal.s ""),
                 ("x", CVal.s "index"), ("y", CVal.s "value"),
                 ("orientation", CVal.s "Vertical")] ∧
    "index" ∉ colNames dfValue := by decide

end DataVisualizer
